import Mathlib

/-!
Shallow embedding of the openelections-data-tx election-results parsers
(src/python-parsers) and proofs about them.

Each Python parser is embedded as computable Lean functions over strings
(modelled as their character lists).  Regular expressions used by the
source are rendered as explicit scanners over character lists; whitespace
is the usual ASCII whitespace.  Stateful line loops become fold functions
over an explicit state record, emitting the list of records each line
appends to the `data` accumulator.
-/

namespace StrUtil

/-- Whitespace test used by the embedded `strip`, `split` and `\s` scanners. -/
def isWS (c : Char) : Bool := c = ' ' || c = '\t' || c = '\n' || c = '\r'

def notWS (c : Char) : Bool := !(isWS c)

/-- Characters matched by the regex class `[\d,]`. -/
def isDC (c : Char) : Bool := c.isDigit || c = ','

/-- Characters matched by the regex class `[\d.]`. -/
def isDD (c : Char) : Bool := c.isDigit || c = '.'

/-- Python `str.strip` on a character list. -/
def pyStripL (l : List Char) : List Char :=
  ((l.dropWhile isWS).reverse.dropWhile isWS).reverse

/-- Python `str.strip`. -/
def pyStrip (s : String) : String := String.mk (pyStripL s.data)

/-- Index of the first occurrence of `pat` in `l` (substring search). -/
def findSub : List Char → List Char → Option Nat
  | [], pat => if pat.isEmpty then some 0 else none
  | c :: cs, pat =>
    if pat.isPrefixOf (c :: cs) then some 0
    else (findSub cs pat).map (· + 1)

/-- Python `pat in l` on character lists. -/
def containsL (l pat : List Char) : Bool := (findSub l pat).isSome

/-- Python `pat in s` (substring containment). -/
def containsS (s pat : String) : Bool := containsL s.data pat.data

/-- Python `s.startswith(pat)`. -/
def startsWithS (s pat : String) : Bool := pat.data.isPrefixOf s.data

/-- Maximal runs of characters satisfying `p` (the matches of `p+` under
`re.findall`). -/
def runsOf (p : Char → Bool) : List Char → List (List Char)
  | [] => []
  | [c] => if p c then [[c]] else []
  | c :: c' :: cs =>
    if p c then
      if p c' then
        match runsOf p (c' :: cs) with
        | r :: rs => (c :: r) :: rs
        | [] => [[c]]
      else [c] :: runsOf p (c' :: cs)
    else runsOf p (c' :: cs)

/-- Python `str.split()` (whitespace tokenisation) on a character list. -/
def toksL (l : List Char) : List (List Char) := runsOf notWS l

/-- Python `str.split()` returning strings. -/
def pyTokens (s : String) : List String := (toksL s.data).map String.mk

/-- Numeric value of a digit string. -/
def digitsVal (l : List Char) : Nat :=
  l.foldl (fun acc c => acc * 10 + (c.toNat - 48)) 0

/-- Python `int(x.replace(',', ''))` on the tokens the parsers feed it
(digit-and-comma runs). -/
def pyIntDC (l : List Char) : Int := (digitsVal (l.filter (fun c => c.isDigit)) : Int)

/-- `pyIntDC` on a string. -/
def pyIntS (s : String) : Int := pyIntDC s.data

/-- A token made of digits and commas only (a full `[\d,]+` field). -/
def allDC (t : List Char) : Bool := !t.isEmpty && t.all isDC

/-- A token made of digits only (a full `\d+` field). -/
def allD (t : List Char) : Bool := !t.isEmpty && t.all (fun c => c.isDigit)

/-- A token containing no digit or comma at all. -/
def noDC (t : List Char) : Bool := t.all (fun c => !(isDC c))

/-- A token of shape `[\d.]+%` (a full percentage field). -/
def pctTok (t : List Char) : Bool :=
  match t.reverse with
  | '%' :: rest => !rest.isEmpty && rest.all isDD
  | _ => false

/-- A token that starts with a `[\d.]+%` match (percentage field with
possible trailing junk, as matched by an unanchored regex tail). -/
def pctLead (t : List Char) : Bool :=
  let pre := t.takeWhile isDD
  !pre.isEmpty && (t.drop pre.length).head? = some '%'

/-- The line obtained by joining tokens with single spaces. -/
def lineOf : List (List Char) → List Char
  | [] => []
  | [t] => t
  | t :: ts => t ++ ' ' :: lineOf ts

/-- One element of an embedded `re.search` pattern: a literal, a `\s+`
separator, or a captured `cls+` run. -/
inductive Pat where
  | lit (s : List Char)
  | ws
  | run (cls : Char → Bool)

/-- Match a pattern element list at the head of `l`; the tail of the line
is left unanchored, mirroring `re.search` patterns with no `$`.
Returns the captured runs. -/
def matchPats : List Pat → List Char → Option (List (List Char))
  | [], _ => some []
  | Pat.lit s :: ps, l =>
    if s.isPrefixOf l then matchPats ps (l.drop s.length) else none
  | Pat.ws :: ps, l =>
    match l with
    | c :: _ => if isWS c then matchPats ps (l.dropWhile isWS) else none
    | [] => none
  | Pat.run cls :: ps, l =>
    let r := l.takeWhile cls
    if r.isEmpty then none
    else (matchPats ps (l.drop r.length)).map (r :: ·)

/-- `re.search`: try `matchPats` at every start position, leftmost first. -/
def searchPats (ps : List Pat) : List Char → Option (List (List Char))
  | [] => matchPats ps []
  | c :: cs =>
    match matchPats ps (c :: cs) with
    | some r => some r
    | none => searchPats ps cs

/-- End-anchored variant of `matchPats`, for patterns ending in `$`. -/
def matchPatsE : List Pat → List Char → Option (List (List Char))
  | [], l => if l.isEmpty then some [] else none
  | Pat.lit s :: ps, l =>
    if s.isPrefixOf l then matchPatsE ps (l.drop s.length) else none
  | Pat.ws :: ps, l =>
    match l with
    | c :: _ => if isWS c then matchPatsE ps (l.dropWhile isWS) else none
    | [] => none
  | Pat.run cls :: ps, l =>
    let r := l.takeWhile cls
    if r.isEmpty then none
    else (matchPatsE ps (l.drop r.length)).map (r :: ·)

/-- A token that starts with a `[\d,]+` match (last capture of an
unanchored regex tail). -/
def dcLead (t : List Char) : Bool := !(t.takeWhile isDC).isEmpty

/-- Whether Python `int(t.replace(',', ''))` succeeds on this token. -/
def intOK (t : List Char) : Bool :=
  let d := t.filter (fun c => c ≠ ',')
  !d.isEmpty && d.all (fun c => c.isDigit)

/-- Split at the first occurrence of `sep` (used for Python
`split(sep, 1)` and `split(sep)[0］`-style uses). -/
def splitFirstL (l sep : List Char) : Option (List Char × List Char) :=
  (findSub l sep).map (fun i => (l.take i, l.drop (i + sep.length)))

/-- Python `s.split(sep)` for nonempty `sep` (leftmost, non-overlapping),
driven by a fuel argument bounded by the length of `l`. -/
def splitAllL (fuel : Nat) (l sep : List Char) : List (List Char) :=
  match fuel with
  | 0 => [l]
  | fuel + 1 =>
    match splitFirstL l sep with
    | none => [l]
    | some (pre, post) => pre :: splitAllL fuel post sep

/-- Python `s.split(sep)` on strings. -/
def pySplitSep (s sep : String) : List String :=
  (splitAllL (s.data.length + 1) s.data sep.data).map String.mk

/-- Python `s.split(sep, 1)`. -/
def pySplitSep1 (s sep : String) : List String :=
  match splitFirstL s.data sep.data with
  | none => [s]
  | some (pre, post) => [String.mk pre, String.mk post]

/-- Python `s.replace(old, new)` for the single use `replace(')', '')`:
remove every occurrence of a single character. -/
def removeChar (s : String) (c : Char) : String :=
  String.mk (s.data.filter (fun d => d ≠ c))

/-- Python `s.lower()` on one character. -/
def lowerC (c : Char) : Char := c.toLower

/-- Stable insertion for the embedded `list.sort`: the new element goes
before the first strictly greater element, hence after existing equals. -/
def insertLt {α : Type} (lt : α → α → Bool) (x : α) : List α → List α
  | [] => [x]
  | y :: ys => if lt x y then x :: y :: ys else y :: insertLt lt x ys

/-- Python `list.sort(key=...)` as a stable insertion sort over the
strict key comparison. -/
def pySort {α : Type} (lt : α → α → Bool) (l : List α) : List α :=
  l.foldl (fun acc x => insertLt lt x acc) []

end StrUtil

open StrUtil

namespace Clarity

/-!
Embedding of `src/python-parsers/clarity_parser.py`.

`precinct_results` consumes the stream of `clarify` results parsed from
`detail.xml`; that stream and the `VoterTurnout` section of the XML are
the external inputs of the model.
-/

/-- A `result.choice` value: its display text and (optional) party. -/
structure Choice where
  text : Option String
  party : Option String
deriving DecidableEq

/-- One element of `p.results`. -/
structure Result where
  vote_type : String
  choice : Option Choice
  contest : String
  jurisdiction : Option String
  votes : Int
deriving DecidableEq

/-- `clean_candidate_name`: strip the first matching leading party tag. -/
def clean_candidate_name (candidate_text : String) : String :=
  if candidate_text = "" then candidate_text
  else
    let candidate := pyStrip candidate_text
    let prefixes := ["REP ", "DEM ", "LIB ", "GRN ", "IND "]
    match prefixes.find? (fun p => startsWithS candidate p) with
    | some p => pyStrip (String.mk (candidate.data.drop p.length))
    | none => candidate

/-- `parse_candidate_party`: split a combined candidate/party text. -/
def parse_candidate_party (candidate_text : String) : String × Option String :=
  let candidate := pyStrip candidate_text
  if containsS candidate "(" then
    if containsS candidate "(I)" then
      if containsS candidate "(I)(I)" then
        let c := (pySplitSep candidate "(I)").headD ""
        (pyStrip c, some "I")
      else
        let parts := pySplitSep candidate "(I)"
        let c0 := pyStrip (parts.headD "")
        let keep := parts.length > 1 ∧ pyStrip (parts.getD 1 "") ≠ ""
        (if keep then c0 ++ " (I)" else c0, some "I")
    else
      match pySplitSep1 candidate "(" with
      | [c, partPart] => (pyStrip c, some (pyStrip (removeChar partPart ')')))
      | _ => (candidate, none)
  else (candidate, none)

/-- `parse_office`: split an office string into office text and district. -/
def parse_office (office_text : String) : String × Option String :=
  if office_text = "" then ("", none)
  else
    let office_text := pyStrip office_text
    let office :=
      if containsS office_text " - " then
        pyStrip ((pySplitSep office_text " - ").headD "")
      else if containsS office_text "," then
        pyStrip ((pySplitSep office_text ",").headD "")
      else office_text
    let district : Option String :=
      if containsS office_text ", District" then
        let part := (pySplitSep office_text ", District").getD 1 ""
        if containsS part " - " then some (pyStrip ((pySplitSep part " - ").headD ""))
        else some (pyStrip part)
      else if containsS office_text ", Dist" then
        let part := (pySplitSep office_text ", Dist").getD 1 ""
        if containsS part " - " then some (pyStrip ((pySplitSep part " - ").headD ""))
        else some (pyStrip part)
      else if containsS office_text "Precinct" then
        some (pyStrip ((pySplitSep office_text "Precinct").getD 1 ""))
      else if containsS office_text ", Pl " then
        let part := (pySplitSep office_text ", Pl ").getD 1 ""
        if containsS part " - " then some (pyStrip ((pySplitSep part " - ").headD ""))
        else some (pyStrip part)
      else none
    let (office, district) :=
      if containsS office "President/Vice President" then ("President", district)
      else if containsS office "United States Senator" || containsS office "US Senator"
          || containsS office "U. S. Senator" then ("U.S. Senate", none)
      else if containsS office "US Representative" || containsS office "U.S. Representative"
          || containsS office "United States Representative" then ("U.S. House", district)
      else (office, district)
    (office, district)

/-- `parse_party`: party suffix of a contest string. -/
def parse_party (office_text : String) : Option String :=
  if containsS office_text "- REP" then some "REP"
  else if containsS office_text "- DEM" then some "DEM"
  else none

/-- The `statewide_results` candidate/party branch (clarity lines 108-120):
run when the candidate text has a parenthesis and no party was found in
the contest text. -/
def statewide_candidate (candidate : String) : String × String :=
  if containsS candidate "(I)" then
    let (c, p) :=
      if containsS candidate "(I)(I)" then
        ((pySplitSep candidate "(I)").headD "", "I")
      else
        let parts := pySplitSep candidate "(I)"
        (parts.headD "", parts.getD 1 "")
    (pyStrip c ++ " (I)", pyStrip (removeChar p ')'))
  else
    match pySplitSep1 candidate "(" with
    | [c, p] => (pyStrip c, pyStrip (removeChar p ')'))
    | _ => (candidate, "")

/-- Aggregation key: `(county, precinct, office, district, party, candidate)`.
Turnout rows use `none` for the candidate. -/
structure Key where
  county : String
  precinct : String
  office : String
  district : Option String
  party : Option String
  candidate : Option String
deriving DecidableEq

/-- The per-key payload: vote-method name to vote count, in insertion
order (a Python inner dict). -/
abbrev Payload := List (String × Int)

/-- The aggregation store: key to payload, in insertion order (the Python
`results` defaultdict). -/
abbrev Store := List (Key × Payload)

/-- `payload[m] = v`: overwrite the entry for `m` or append it. -/
def payloadSet (pl : Payload) (m : String) (v : Int) : Payload :=
  match pl with
  | [] => [(m, v)]
  | (n, w) :: rest =>
    if n = m then (n, v) :: rest else (n, w) :: payloadSet rest m v

/-- First-match lookup in a payload. -/
def payloadGet (pl : Payload) (m : String) : Option Int :=
  match pl with
  | [] => none
  | (n, w) :: rest => if n = m then some w else payloadGet rest m

/-- `results[key][m] = v` on the store. -/
def storeSet (st : Store) (k : Key) (m : String) (v : Int) : Store :=
  match st with
  | [] => [(k, [(m, v)])]
  | (k', pl) :: rest =>
    if k' = k then (k', payloadSet pl m v) :: rest
    else (k', pl) :: storeSet rest k m v

/-- Vote types excluded up front by `precinct_results`. -/
def excluded_vote_types : List String :=
  ["Number of Precincts", "Overvotes", "Undervotes"]

/-- Accumulator of the `for result in p.results` loop: the store and the
`vote_types` set (as a first-insertion-ordered duplicate-free list). -/
abbrev Acc := Store × List String

/-- Insertion into the `vote_types` set, modelled as a duplicate-free
list in first-insertion order. -/
def insertVT (vts : List String) (vt : String) : List String :=
  if vt ∈ vts then vts else vts ++ [vt]

/-- The candidate text of a result: `result.choice.text.strip() if
result.choice.text else ""`. -/
def candidateText (ch : Choice) : String :=
  match ch.text with
  | none => ""
  | some t => if t = "" then "" else pyStrip t

/-- The aggregation key built from one result (clarity lines 280-302):
office and district from `parse_office`, party from the choice or from
the candidate text, the candidate cleaned of party prefixes, and the
county from `p.region` when present. -/
def resultKey (county_name : String) (region : Option String) (r : Result)
    (ch : Choice) (precinct : String) : Key :=
  let (office, district) := parse_office r.contest
  let candidate := candidateText ch
  let (candidate, party) :=
    if containsS candidate "(" ∧ ch.party = none then
      parse_candidate_party candidate
    else (candidate, ch.party)
  let candidate := clean_candidate_name candidate
  let county := match region with | some rg => rg | none => county_name
  ⟨county, precinct, office, district, party, some candidate⟩

/-- The store update of one result: skipped without a precinct. -/
def consumeStore (county_name : String) (region : Option String)
    (store : Store) (r : Result) (ch : Choice) : Store :=
  match r.jurisdiction with
  | none => store
  | some precinct =>
    storeSet store (resultKey county_name region r ch precinct) r.vote_type r.votes

/-- One iteration of the `for result in p.results` loop of
`precinct_results`. -/
def consume (county_name : String) (region : Option String) (acc : Acc)
    (r : Result) : Acc :=
  if r.vote_type ∈ excluded_vote_types then acc
  else
    match r.choice with
    | none => acc
    | some ch =>
      let vts := insertVT acc.2 r.vote_type
      if candidateText ch = "" then (acc.1, vts)
      else (consumeStore county_name region acc.1 r ch, vts)

/-- The `VoterTurnout` section of `detail.xml`, as yielded by the XML
reader: per-precinct `(name, totalVoters, ballotsCast)` attributes and the
optional per-vote-type breakdowns `(vote-type name, [(precinct, votes)])`.
String attributes are already converted to integers at this boundary. -/
structure Turnout where
  precincts : List (String × Int × Int)
  voteTypes : List (String × List (String × Int))
deriving DecidableEq

/-- One precinct of the `VoterTurnout` section (clarity lines 172-190):
nonzero totals become Registered Voters and Ballots Cast entries. -/
def turnoutPrecStep (county_name : String) (st : Store)
    (pr : String × Int × Int) : Store :=
  let (pn, tv, bc) := pr
  if pn ≠ "" then
    let st1 := if tv ≠ 0 then
        storeSet st ⟨county_name, pn, "Registered Voters", none, none, none⟩
          "votes_only" tv
      else st
    if bc ≠ 0 then
      storeSet st1 ⟨county_name, pn, "Ballots Cast", none, none, none⟩
        "ballotsCast" bc
    else st1
  else st

/-- One `VoteType` breakdown of the `VoterTurnout` section (clarity lines
192-206): nonzero per-precinct figures merge into the Ballots Cast entry. -/
def turnoutVTStep (county_name : String) (st : Store)
    (vt : String × List (String × Int)) : Store :=
  let (vtn, precs) := vt
  if vtn ≠ "" ∧ vtn ≠ "regVotersCounty" then
    precs.foldl
      (fun st pv =>
        if pv.1 ≠ "" ∧ pv.2 ≠ 0 then
          storeSet st ⟨county_name, pv.1, "Ballots Cast", none, none, none⟩ vtn pv.2
        else st) st
  else st

/-- `add_voter_turnout_rows` (main XML branch): inject Registered Voters
and Ballots Cast rows into the store. -/
def addTurnout (county_name : String) (store : Store) (t : Turnout) : Store :=
  let s1 := t.precincts.foldl (turnoutPrecStep county_name) store
  if t.voteTypes.isEmpty then s1
  else t.voteTypes.foldl (turnoutVTStep county_name) s1

/-- An output row: the key fields, the computed total, and the dynamic
vote-method cells (`none` renders as the empty CSV cell). -/
structure Row where
  county : String
  precinct : String
  office : String
  district : Option String
  party : Option String
  candidate : Option String
  votes : Int
  cols : List (String × Option Int)
deriving DecidableEq

/-- Column name for a vote type: `vt.replace(' ', '_').lower()`. -/
def colName (vt : String) : String :=
  String.mk (vt.data.map (fun c => lowerC (if c = ' ' then '_' else c)))

/-- Sum of payload values excluding the reserved `votes_only` entry. -/
def payloadTotal (pl : Payload) : Int :=
  ((pl.filter (fun e => e.1 ≠ "votes_only")).map (fun e => e.2)).sum

/-- Build one output row from a store entry (clarity lines 312-349),
including the Republican/Democrat party override and the
Registered-Voters totals special case. -/
def emitRow (vts : List String) (k : Key) (pl : Payload) : Row :=
  let party :=
    if containsS k.office "Republican" then some "REP"
    else if containsS k.office "Democrat" then some "DEM"
    else k.party
  let votes : Int :=
    if k.office = "Registered Voters" then (payloadGet pl "votes_only").getD 0
    else payloadTotal pl
  let cols := (vts.filter (fun vt => vt ≠ "votes_only")).map
    (fun vt =>
      (colName vt,
        if k.office = "Registered Voters" then none
        else some ((payloadGet pl vt).getD 0)))
  ⟨k.county, k.precinct, k.office, k.district, party, k.candidate, votes, cols⟩

/-- The lexicographic comparison domain of the Python sort key tuple
`(office, district or '', candidate)`; strings compare as their
character lists. -/
abbrev SortKey := Lex (List Char × Lex (List Char × Lex (Bool × List Char)))

/-- Sort key of `output_rows.sort`: `(office, district or '', candidate)`.
A `none` candidate is ordered before any string (Python would compare
`None` with a string only on a full tie of the other components). -/
def sortKey (r : Row) : SortKey :=
  toLex (r.office.data, toLex ((r.district.getD "").data,
    toLex (match r.candidate with
      | none => (false, ([] : List Char))
      | some c => (true, c.data))))

/-- The strict key comparison handed to the sort. -/
def rowLt (a b : Row) : Bool := decide (sortKey a < sortKey b)

/-- The final store of `precinct_results`: the aggregated result stream
plus the injected voter-turnout rows. -/
def finalAcc (county_name : String) (region : Option String)
    (results : List Result) (t : Turnout) : Acc :=
  let (store, vts) := results.foldl (consume county_name region) ([], [])
  (addTurnout county_name store t, vts)

/-- `precinct_results`: the rows written to the CSV, in order. -/
def precinct_results (county_name : String) (region : Option String)
    (results : List Result) (t : Turnout) : List Row :=
  pySort rowLt
    (((finalAcc county_name region results t).1).map
      (fun e => emitRow (finalAcc county_name region results t).2 e.1 e.2))

end Clarity

namespace Collin

/-!
Embedding of `src/python-parsers/collin.py` (`parse_election_data` and
`normalize_office_name`).  The input is the list of text lines extracted
from the PDF; the state carries the current precinct, office and district,
and the fold returns the `data` record list in emission order.
-/

/-- One output record of the Collin parser. -/
structure Rec where
  county : String
  precinct : String
  office : String
  district : String
  party : String
  candidate : String
  votes : Int
  election_day : Int
  early_voting : Int
  ballot_by_mail : Int
  provisional : Int
  limited : Int
deriving DecidableEq

/-- The scan state of `parse_election_data`. -/
structure St where
  precinct : Option String
  office : Option String
  district : String
deriving DecidableEq

/-- Initial scan state. -/
def initSt : St := ⟨none, none, ""⟩

/-- `normalize_office_name` of collin.py. -/
def normalize_office_name (office0 : String) : String :=
  let office := pyStrip office0
  if containsS office "President/Vice President" ||
     containsS office "President and Vice President" then "President"
  else if containsS office "United States Senator" ||
     containsS office "U.S. Senator" then "U.S. Senate"
  else if containsS office "United States Representative" ||
     containsS office "U.S. Representative" then "U.S. House"
  else if containsS office "State Representative" then "State Representative"
  else if containsS office "State Senator" then "State Senator"
  else if containsS office "Railroad Commissioner" then "Railroad Commissioner"
  else if containsS office "Justice, Supreme Court" then office
  else if containsS office "Judge," || containsS office "Justice," ||
     containsS office "Presiding Judge" || containsS office "District Judge" then office
  else if containsS office "Member, State Board of Education" ||
     containsS office "Member, State BoE" then "State Board of Education"
  else if containsS office "Chief Justice" then office
  else if containsS office "County" then office
  else if containsS office "Sheriff" then "Sheriff"
  else if containsS office "Constable" then office
  else if containsS office "Proposition" then office
  else office

/-- Office indicator substrings (collin.py lines 96-102). -/
def office_indicators : List String :=
  ["President/Vice President", "United States Senator", "United States Representative",
   "Railroad Commissioner", "Justice, Supreme Court", "Presiding Judge",
   "Judge, Court of Criminal Appeals", "Member, State Board of Education",
   "State Senator", "State Representative", "Chief Justice",
   "Justice, 5th Court of Appeals", "District Judge", "Judge, County Probate Court",
   "Sheriff", "County Tax Assessor-Collector", "County Commissioner", "Constable",
   "Proposition"]

/-- Terms that exclude a line from being an office header (collin.py line 107). -/
def office_skip_terms : List String :=
  ["Vote For", "TOTAL", "Rep ", "Dem ", "Lib ", "Grn ", "Write-In", "YES", "NO"]

/-- Header and summary skip terms (collin.py lines 139-142). -/
def skip_terms : List String :=
  ["Vote For", "TOTAL", "VOTE %", "Election Day", "Early Voting",
   "Ballot by mail", "Provisional", "Limited", "Contest Totals"]

/-- `^PCT\s+(\d+)$` on a stripped line. -/
def pctHeader (l : List Char) : Option String :=
  match matchPatsE [Pat.lit "PCT".data, Pat.ws, Pat.run (fun c => c.isDigit)] l with
  | some (d :: _) => some (String.mk d)
  | _ => none

/-- District extraction on an office line (collin.py lines 112-122):
`District N`, then `Place N`, then `Precinct No. N`. -/
def districtOf (line : String) : String :=
  match searchPats [Pat.lit "District".data, Pat.ws, Pat.run (fun c => c.isDigit)] line.data with
  | some (d :: _) => String.mk d
  | _ =>
    match searchPats [Pat.lit "Place".data, Pat.ws, Pat.run (fun c => c.isDigit)] line.data with
    | some (d :: _) => String.mk d
    | _ =>
      match searchPats [Pat.lit "Precinct".data, Pat.ws, Pat.lit "No.".data, Pat.ws,
          Pat.run (fun c => c.isDigit)] line.data with
      | some (d :: _) => String.mk d
      | _ => ""

/-- The known party tokens of the candidate patterns. -/
def parties : List String := ["Rep", "Dem", "Lib", "Grn", "IND"]

/-- Numeric tail of the strict candidate pattern at a token suffix:
`([\d,]+)\s+[\d.]+%\s+([\d,]+)\s+([\d,]+)\s+([\d,]+)\s+([\d,]+)\s+([\d,]+)`
with the final capture unanchored. -/
def strictTail : List (List Char) → Option (Int × Int × Int × Int × Int × Int)
  | t :: p :: n1 :: n2 :: n3 :: n4 :: n5 :: _ =>
    if allDC t && pctTok p && allDC n1 && allDC n2 && allDC n3 && allDC n4 && dcLead n5 then
      some (pyIntDC t, pyIntDC n1, pyIntDC n2, pyIntDC n3, pyIntDC n4,
        pyIntDC (n5.takeWhile isDC))
    else none
  | _ => none

/-- Leftmost split of the candidate tokens against `strictTail` (the lazy
`(.+?)` group: the earliest boundary wins, and the candidate part must be
nonempty). -/
def strictFind (cand : List (List Char)) :
    List (List Char) → Option (List (List Char) × (Int × Int × Int × Int × Int × Int))
  | [] => none
  | t :: ts =>
    match cand, strictTail (t :: ts) with
    | c :: cs, some v => some (c :: cs, v)
    | _, _ => strictFind (cand ++ [t]) ts

/-- The strict candidate regex (collin.py line 215) at token level. -/
def strictCand (line : String) : Option (String × String × (Int × Int × Int × Int × Int × Int)) :=
  match toksL line.data with
  | p :: rest =>
    if parties.any (fun q => q.data = p) then
      match strictFind [] rest with
      | some (cand, v) =>
        some (String.mk p, pyStrip (String.intercalate " " (cand.map String.mk)), v)
      | none => none
    else none
  | [] => none

/-- The simple fallback prefix match `(Rep|Dem|Lib|Grn|IND)\s+(.+)`
(collin.py line 232): the party and the rest of the line. -/
def simpleMatch (l : List Char) : Option (String × List Char) :=
  match l with
  | a :: b :: c :: rest =>
    let p := String.mk [a, b, c]
    if parties.any (fun q => q = p) then
      match rest with
      | d :: _ =>
        if isWS d then
          let body := rest.dropWhile isWS
          if body.isEmpty then none else some (p, body)
        else none
      | [] => none
    else none
  | _ => none

/-- Rename of named write-ins (collin.py lines 256-257 etc.). -/
def fixWriteIn (candidate : String) : String :=
  if startsWithS candidate "Write-In" then "Write-In Totals" else candidate

/-- The simple fallback extractor (collin.py lines 238-274): tokenize the
rest of the line by `[\d,]+` runs and reject unless at least six numeric
runs are present; a comma-only run makes the `int` conversion raise and
the extractor fail. -/
def simpleFallback (rest : List Char) : Option (String × (Int × Int × Int × Int × Int × Int)) :=
  let numbers := runsOf isDC rest
  if numbers.length ≥ 6 then
    let used := [numbers.getD 0 [], numbers.getD 2 [], numbers.getD 3 [],
      numbers.getD 4 [], numbers.getD 5 []] ++
      (if numbers.length > 6 then [numbers.getD 6 []] else [])
    if used.all intOK then
      match findSub rest (numbers.getD 0 []) with
      | some i =>
        let candidate := pyStrip (String.mk (rest.take i))
        some (candidate,
          (pyIntDC (numbers.getD 0 []), pyIntDC (numbers.getD 2 []),
           pyIntDC (numbers.getD 3 []), pyIntDC (numbers.getD 4 []),
           pyIntDC (numbers.getD 5 []),
           if numbers.length > 6 then pyIntDC (numbers.getD 6 []) else 0))
      | none => none
    else none
  else none

/-- The percentage fallback extractor (collin.py lines 279-319): split the
line on whitespace, locate the first token ending in `%`, and read the
total and five method counts around it; any non-integer token or missing
index makes the conversion raise and the extractor fail. -/
def pctFallback (line : String) : Option (String × (Int × Int × Int × Int × Int × Int)) :=
  let parts := pyTokens line
  if parts.length ≥ 8 then
    match parts.findIdx? (fun t => t.data.getLast? = some '%') with
    | some pctIdx =>
      if pctIdx > 0 then
        if pctIdx + 5 < parts.length then
          let used := [parts.getD (pctIdx - 1) "", parts.getD (pctIdx + 1) "",
            parts.getD (pctIdx + 2) "", parts.getD (pctIdx + 3) "",
            parts.getD (pctIdx + 4) "", parts.getD (pctIdx + 5) ""]
          if used.all (fun t => intOK t.data) then
            some (String.intercalate " " ((parts.drop 1).take (pctIdx - 2)),
              (pyIntS (parts.getD (pctIdx - 1) ""), pyIntS (parts.getD (pctIdx + 1) ""),
               pyIntS (parts.getD (pctIdx + 2) ""), pyIntS (parts.getD (pctIdx + 3) ""),
               pyIntS (parts.getD (pctIdx + 4) ""), pyIntS (parts.getD (pctIdx + 5) "")))
          else none
        else none
      else none
    | none => none
  else none

/-- The uncontested pattern (collin.py line 357):
`^(Rep|Dem)\s+(.+?)\s+([\d,]+)\s+100\.00%\s+` then five `[\d,]+` fields,
end-anchored. -/
def uncontestedCand (line : String) :
    Option (String × String × (Int × Int × Int × Int × Int × Int)) :=
  match toksL line.data with
  | p :: rest =>
    if p = "Rep".data ∨ p = "Dem".data then
      let n := rest.length
      if n ≥ 8 then
        let cand := rest.take (n - 7)
        match rest.drop (n - 7) with
        | [t, pc, n1, n2, n3, n4, n5] =>
          if allDC t && pc = "100.00%".data && allDC n1 && allDC n2 && allDC n3 &&
              allDC n4 && allDC n5 then
            some (String.mk p, pyStrip (String.intercalate " " (cand.map String.mk)),
              (pyIntDC t, pyIntDC n1, pyIntDC n2, pyIntDC n3, pyIntDC n4, pyIntDC n5))
          else none
        | _ => none
      else none
    else none
  | [] => none

/-- The proposition pattern (collin.py line 388):
`^(YES|NO)\s+([\d,]+)\s+[\d.]+%\s+` then five `[\d,]+` fields, end-anchored. -/
def propCand (line : String) : Option (String × (Int × Int × Int × Int × Int × Int)) :=
  match toksL line.data with
  | [p, t, pc, n1, n2, n3, n4, n5] =>
    if (p = "YES".data ∨ p = "NO".data) && allDC t && pctTok pc && allDC n1 &&
        allDC n2 && allDC n3 && allDC n4 && allDC n5 then
      some (String.mk p,
        (pyIntDC t, pyIntDC n1, pyIntDC n2, pyIntDC n3, pyIntDC n4, pyIntDC n5))
    else none
  | _ => none

/-- Build a Collin record from state, party, candidate and the six counts. -/
def mkRec (county : String) (prec office district party candidate : String)
    (v : Int × Int × Int × Int × Int × Int) : Rec :=
  let (total, ed, ev, mail, prov, lim) := v
  ⟨county, prec, normalize_office_name office, district, party, candidate,
    total, ed, ev, mail, prov, lim⟩

/-- The fallback extractors of the debug block (collin.py lines 219-321):
attempted only when the line starts with a known party prefix and the
strict pattern failed; the simple fallback first, then the percentage
fallback gated on at least six numeric runs. -/
def fallbackOut (county : String) (st : St) (prec office line : String) : Option Rec :=
  if (["Rep ", "Dem ", "Lib ", "Grn ", "IND "].any (fun p => startsWithS line p)) &&
      (strictCand line).isNone then
    match simpleMatch line.data with
    | some (party, rest) =>
      match simpleFallback rest with
      | some (cand, v) =>
        some (mkRec county prec office st.district party (fixWriteIn cand) v)
      | none =>
        match (if (runsOf isDC rest).length ≥ 6 then pctFallback line else none) with
        | some (cand, v) =>
          some (mkRec county prec office st.district party (fixWriteIn cand) v)
        | none => none
    | none =>
      match (if (runsOf isDC line.data).length ≥ 6 then pctFallback line else none) with
      | some (cand, v) =>
        some (mkRec county prec office st.district ((pyTokens line).headD "")
          (fixWriteIn cand) v)
      | none => none
  else none

/-- The candidate cascade (collin.py lines 213-415): fallbacks when the
strict pattern fails, then the strict match, the uncontested pattern and
the proposition pattern. -/
def goCand (county : String) (st : St) (prec office line : String) : St × List Rec :=
  match fallbackOut county st prec office line with
  | some r => (st, [r])
  | none =>
    match strictCand line with
    | some (party, cand, v) =>
      (st, [mkRec county prec office st.district party (fixWriteIn cand) v])
    | none =>
      match uncontestedCand line with
      | some (party, cand, v) =>
        (st, [mkRec county prec office st.district party cand v])
      | none =>
        match propCand line with
        | some (pos, v) =>
          if containsS office "Proposition" then
            (st, [mkRec county prec office st.district "" pos v])
          else (st, [])
        | none => (st, [])

/-- The undervotes branch (collin.py lines 185-211). -/
def goUnder (county : String) (st : St) (prec office line : String) : St × List Rec :=
  if startsWithS line "Undervotes" then
    let numbers := runsOf (fun c => c.isDigit) line.data
    if numbers.length ≥ 6 then
      (st, [mkRec county prec office st.district "" "Under Votes"
        ((digitsVal (numbers.getD 0 []) : Int), (digitsVal (numbers.getD 1 []) : Int),
         (digitsVal (numbers.getD 2 []) : Int), (digitsVal (numbers.getD 3 []) : Int),
         (digitsVal (numbers.getD 4 []) : Int), (digitsVal (numbers.getD 5 []) : Int))])
    else (st, [])
  else goCand county st prec office line

/-- The overvotes branch (collin.py lines 156-183). -/
def goOver (county : String) (st : St) (prec office line : String) : St × List Rec :=
  if startsWithS line "Overvotes" then
    let numbers := runsOf (fun c => c.isDigit) line.data
    if numbers.length ≥ 6 then
      (st, [mkRec county prec office st.district "" "Over Votes"
        ((digitsVal (numbers.getD 0 []) : Int), (digitsVal (numbers.getD 1 []) : Int),
         (digitsVal (numbers.getD 2 []) : Int), (digitsVal (numbers.getD 3 []) : Int),
         (digitsVal (numbers.getD 4 []) : Int), (digitsVal (numbers.getD 5 []) : Int))])
    else (st, [])
  else goUnder county st prec office line

/-- The header and summary skip (collin.py lines 138-154). -/
def goSkip (county : String) (st : St) (prec office line : String) : St × List Rec :=
  if skip_terms.any (fun t => containsS line t) then (st, [])
  else goOver county st prec office line

/-- Drop lines seen before the first office header (lines 131-132). -/
def goHaveOffice (county : String) (st : St) (prec line : String) : St × List Rec :=
  match st.office with
  | none => (st, [])
  | some office => goSkip county st prec office line

/-- The office-header branch (collin.py lines 95-129): an office
indicator with no skip term consumes the line. -/
def goOffice (county : String) (st : St) (prec line : String) : St × List Rec :=
  if office_indicators.any
      (fun ind => containsS line ind &&
        !(office_skip_terms.any (fun t => containsS line t))) then
    ({ st with office := some line, district := districtOf line }, [])
  else goHaveOffice county st prec line

/-- Drop lines seen before the first precinct header (lines 91-93). -/
def goHave (county : String) (st : St) (line : String) : St × List Rec :=
  match st.precinct with
  | none => (st, [])
  | some prec => goOffice county st prec line

/-- The precinct-header branch (collin.py lines 82-89): a failed
`^PCT\s+(\d+)$` match falls through to the rest of the body. -/
def goPCT (county : String) (st : St) (line : String) : St × List Rec :=
  if startsWithS line "PCT " then
    match pctHeader line.data with
    | some num => ({ st with precinct := some ("PCT " ++ num) }, [])
    | none => goHave county st line
  else goHave county st line

/-- One iteration of the line loop of collin.py `parse_election_data`. -/
def step (county : String) (st : St) (line0 : String) : St × List Rec :=
  if pyStrip line0 = "" then (st, [])
  else goPCT county st (pyStrip line0)

/-- The complete scan: `parse_election_data(text, county)` over the line
list, returning the `data` accumulator (written unsorted by `main`). -/
def run (county : String) (lines : List String) : List Rec :=
  (lines.foldl (fun acc ln =>
    let (st', rs) := step county acc.1 ln
    (st', acc.2 ++ rs)) (initSt, [])).2

end Collin

namespace Ware

/-!
Embedding of `src/python-parsers/electionware.py` (`parse_election_data`
and `normalize_office_name`).
-/

/-- One output record of the electionware parser.  Vote-method cells are
optional because the Registered Voters row writes empty strings there. -/
structure Rec where
  county : String
  precinct : String
  office : String
  district : String
  party : String
  candidate : String
  votes : Int
  absentee : Option Int
  early_voting : Option Int
  election_day : Option Int
deriving DecidableEq

/-- The scan state: context plus the `precinct_stats_added` flag set
(kept as a list in insertion order). -/
structure St where
  precinct : Option String
  office : Option String
  district : String
  flags : List String
deriving DecidableEq

/-- Initial scan state. -/
def initSt : St := ⟨none, none, "", []⟩

/-- `normalize_office_name` of electionware.py. -/
def normalize_office_name (office0 : String) : String :=
  let office := pyStrip office0
  if containsS office "President/Vice President" ||
     containsS office "President and Vice President" then "President"
  else if containsS office "US Senator" || containsS office "U.S. Senator" then "U.S. Senate"
  else if containsS office "US Representative" ||
     containsS office "U.S. Representative" then "U.S. House"
  else if containsS office "State Representative" then "State Representative"
  else if containsS office "Railroad Commissioner" then "Railroad Commissioner"
  else if containsS office "Justice, Supreme Court" then office
  else if containsS office "Judge," || containsS office "Justice," ||
     containsS office "Presiding Judge" then office
  else if containsS office "Member, State BoE" then "State Board of Education"
  else if containsS office "Dist Attorney" || containsS office "District Attorney" then
    "District Attorney"
  else if containsS office "County" then office
  else if containsS office "Sheriff" then "Sheriff"
  else if containsS office "Constable" then office
  else if containsS office "Board of Trustees" then office
  else if containsS office "Chief Justice" then office
  else office

/-- Office indicator substrings (electionware.py lines 223-230). -/
def office_indicators : List String :=
  ["President/Vice President", "US Senator", "U.S. Senator",
   "US Representative", "U.S. Representative", "Railroad Commissioner",
   "Justice, Supreme Court", "Justice,", "Judge,", "Presiding Judge",
   "Member, State BoE", "State Representative", "Dist Attorney",
   "County Attorney", "County Commissioner", "County Clerk", "County Tax",
   "Sheriff", "Constable", "Board of Trustees", "Chief Justice"]

/-- Header and summary skip terms (electionware.py lines 261-265). -/
def skip_terms : List String :=
  ["Vote For", "TOTAL", "Absentee", "Early", "Election",
   "Voting", "Day", "Total Votes Cast", "Write-In Totals",
   "Not Assigned", "Contest Totals", "Write-In:"]

/-- District extraction on an office line (electionware.py lines 238-252):
`Dist N`, then `Place N`, then `Pct N`, then `Pl N`. -/
def districtOf (line : String) : String :=
  match searchPats [Pat.lit "Dist".data, Pat.ws, Pat.run (fun c => c.isDigit)] line.data with
  | some (d :: _) => String.mk d
  | _ =>
    match searchPats [Pat.lit "Place".data, Pat.ws, Pat.run (fun c => c.isDigit)] line.data with
    | some (d :: _) => String.mk d
    | _ =>
      match searchPats [Pat.lit "Pct".data, Pat.ws, Pat.run (fun c => c.isDigit)] line.data with
      | some (d :: _) => String.mk d
      | _ =>
        match searchPats [Pat.lit "Pl".data, Pat.ws, Pat.run (fun c => c.isDigit)] line.data with
        | some (d :: _) => String.mk d
        | _ => ""

/-- Search `lit` followed by one `[\d,]+` field. -/
def lit1 (lit : String) (line : String) : Option Int :=
  match searchPats [Pat.lit lit.data, Pat.ws, Pat.run isDC] line.data with
  | some (a :: _) => some (pyIntDC a)
  | _ => none

/-- Search `lit` followed by four `[\d,]+` fields. -/
def lit4 (lit : String) (line : String) : Option (Int × Int × Int × Int) :=
  match searchPats [Pat.lit lit.data, Pat.ws, Pat.run isDC, Pat.ws, Pat.run isDC,
      Pat.ws, Pat.run isDC, Pat.ws, Pat.run isDC] line.data with
  | some [a, b, c, d] => some (pyIntDC a, pyIntDC b, pyIntDC c, pyIntDC d)
  | _ => none

/-- The candidate pattern (electionware.py line 271):
`^(REP|DEM|LIB|GRN|IND)\s+(.+?)\s+(\d+)\s+(\d+)\s+(\d+)\s+(\d+)$` at token
level: the last four tokens are pure digit fields and the candidate is
everything in between. -/
def candMatch (line : String) : Option (String × String × (Int × Int × Int × Int)) :=
  let toks := toksL line.data
  match toks with
  | p :: rest =>
    if ["REP", "DEM", "LIB", "GRN", "IND"].any (fun q => q.data = p) ∧ rest.length ≥ 5 then
      let cand := rest.take (rest.length - 4)
      match rest.drop (rest.length - 4) with
      | [n1, n2, n3, n4] =>
        if allD n1 && allD n2 && allD n3 && allD n4 then
          some (String.mk p, pyStrip (String.intercalate " " (cand.map String.mk)),
            ((digitsVal n1 : Int), (digitsVal n2 : Int), (digitsVal n3 : Int),
             (digitsVal n4 : Int)))
        else none
      | _ => none
    else none
  | [] => none

/-- The candidate branch (electionware.py lines 270-299): match the
candidate pattern, drop named write-ins, emit the record. -/
def goCand (county : String) (st : St) (prec office line : String) : St × List Rec :=
  match candMatch line with
  | some (party, cand, v) =>
    if startsWithS cand "Write-In:" then (st, [])
    else
      (st, [⟨county, prec, normalize_office_name office, st.district, party,
        cand, v.1, some v.2.1, some v.2.2.1, some v.2.2.2⟩])
  | none => (st, [])

/-- The office guard and skip-term filter (lines 257-268), then the
candidate branch. -/
def goSkip (county : String) (st : St) (prec line : String) : St × List Rec :=
  match st.office with
  | none => (st, [])
  | some office =>
    if skip_terms.any (fun t => containsS line t) then (st, [])
    else goCand county st prec office line

/-- Office-header detection (lines 222-255): set the office and district
and fall through to the remaining checks on the same line. -/
def goOffice (county : String) (st : St) (prec line : String) : St × List Rec :=
  if office_indicators.any (fun ind => containsS line ind) then
    goSkip county { st with office := some line, district := districtOf line } prec line
  else goSkip county st prec line

/-- The undervotes branch (lines 197-220). -/
def goUnder (county : String) (st : St) (prec line : String) : St × List Rec :=
  if startsWithS line "Undervotes" && st.office.isSome then
    match lit4 "Undervotes" line with
    | some (total, ab, ev, ed) =>
      (st, [⟨county, prec, normalize_office_name (st.office.getD ""), st.district,
        "", "Under Votes", total, some ab, some ev, some ed⟩])
    | none => (st, [])
  else goOffice county st prec line

/-- The overvotes branch (lines 172-195). -/
def goOver (county : String) (st : St) (prec line : String) : St × List Rec :=
  if startsWithS line "Overvotes" && st.office.isSome then
    match lit4 "Overvotes" line with
    | some (total, ab, ev, ed) =>
      (st, [⟨county, prec, normalize_office_name (st.office.getD ""), st.district,
        "", "Over Votes", total, some ab, some ev, some ed⟩])
    | none => (st, [])
  else goUnder county st prec line

/-- The blank-ballots branch (lines 146-170). -/
def goBlank (county : String) (st : St) (prec line : String) : St × List Rec :=
  if containsS line "Ballots Cast - Blank" then
    match lit4 "Ballots Cast - Blank" line with
    | some (total, ab, ev, ed) =>
      if (prec ++ "_blank") ∈ st.flags then (st, [])
      else ({ st with flags := st.flags ++ [prec ++ "_blank"] },
        [⟨county, prec, "Ballots Cast - Blank", "", "", "", total, some ab, some ev,
          some ed⟩])
    | none => (st, [])
  else goOver county st prec line

/-- The ballots-cast branch (lines 120-144). -/
def goBC (county : String) (st : St) (prec line : String) : St × List Rec :=
  if containsS line "Ballots Cast - Total" then
    match lit4 "Ballots Cast - Total" line with
    | some (total, ab, ev, ed) =>
      if (prec ++ "_ballots") ∈ st.flags then (st, [])
      else ({ st with flags := st.flags ++ [prec ++ "_ballots"] },
        [⟨county, prec, "Ballots Cast", "", "", "", total, some ab, some ev, some ed⟩])
    | none => (st, [])
  else goBlank county st prec line

/-- The registered-voters branch (lines 98-118). -/
def goRV (county : String) (st : St) (prec line : String) : St × List Rec :=
  if containsS line "Registered Voters - Total" then
    match lit1 "Registered Voters - Total" line with
    | some n =>
      if (prec ++ "_registered") ∈ st.flags then (st, [])
      else ({ st with flags := st.flags ++ [prec ++ "_registered"] },
        [⟨county, prec, "Registered Voters", "", "", "", n, none, none, none⟩])
    | none => (st, [])
  else goBC county st prec line

/-- The statistics-section skip (lines 94-96). -/
def goStats (county : String) (st : St) (prec line : String) : St × List Rec :=
  if line = "Statistics" ||
      (containsS line "TOTAL" && containsS line "Absentee" && containsS line "Early") then
    (st, [])
  else goRV county st prec line

/-- Drop lines seen before the first precinct header (lines 90-92). -/
def goHave (county : String) (st : St) (line : String) : St × List Rec :=
  match st.precinct with
  | none => (st, [])
  | some prec => goStats county st prec line

/-- The precinct-header branch (lines 82-88). -/
def goPrec (county : String) (st : St) (line : String) : St × List Rec :=
  if startsWithS line "Precinct " then
    if String.mk ((line.data.drop 8).dropWhile isWS) ≠ "" then
      let p := "Precinct " ++ String.mk ((line.data.drop 8).dropWhile isWS)
      ({ st with precinct := some p }, [])
    else goHave county st line
  else goHave county st line

/-- One iteration of the line loop of electionware.py
`parse_election_data`. -/
def step (county : String) (st : St) (line0 : String) : St × List Rec :=
  if pyStrip line0 = "" then (st, [])
  else goPrec county st (pyStrip line0)

/-- The complete scan of electionware.py `parse_election_data`. -/
def run (county : String) (lines : List String) : List Rec :=
  (lines.foldl (fun acc ln =>
    let (st', rs) := step county acc.1 ln
    (st', acc.2 ++ rs)) (initSt, [])).2

/-- The composite identity key of an emitted record. -/
def recKey (r : Rec) : String × String × String × String × String × String :=
  (r.county, r.precinct, r.office, r.district, r.party, r.candidate)

end Ware

namespace FortBend

/-!
Embedding of `src/python-parsers/fort_bend.py` (`parse_election_data`
and `normalize_office_name`).
-/

/-- One output record of the Fort Bend parser. -/
structure Rec where
  county : String
  precinct : String
  office : String
  district : String
  party : String
  candidate : String
  votes : Int
  absentee : Option Int
  early_voting : Option Int
  election_day : Option Int
deriving DecidableEq

/-- The scan state, with the `precinct_stats_added` flag set. -/
structure St where
  precinct : Option String
  office : Option String
  district : String
  flags : List String
deriving DecidableEq

/-- Initial scan state. -/
def initSt : St := ⟨none, none, "", []⟩

/-- `normalize_office_name` of fort_bend.py. -/
def normalize_office_name (office0 : String) : String :=
  let office := pyStrip office0
  if containsS office "President" &&
      (containsS office "Vice President" || containsS office "Vice-President") then
    "President"
  else if containsS office "President/Vice-President" then "President"
  else if containsS office "United States Senator" || containsS office "US Senator" ||
      containsS office "U.S. Senator" then "U.S. Senate"
  else if containsS office "United States Representative" ||
      containsS office "US Representative" || containsS office "U.S. Representative" then
    "U.S. House"
  else if containsS office "State Representative" then "State Representative"
  else if containsS office "State Senator" then "State Senate"
  else if containsS office "Railroad Commissioner" then "Railroad Commissioner"
  else if containsS office "Justice, Supreme Court" then office
  else if containsS office "Judge," || containsS office "Justice," ||
      containsS office "Presiding Judge" then office
  else if containsS office "Member, State Boe" then "State Board of Education"
  else if containsS office "District Attorney" || containsS office "Dist Attorney" then
    "District Attorney"
  else if containsS office "County" then office
  else if containsS office "Sheriff" then "Sheriff"
  else if containsS office "Constable" then office
  else if containsS office "Board Of Trustees" then office
  else if containsS office "Chief Justice" then office
  else office

/-- Office indicator substrings (fort_bend.py lines 238-246). -/
def office_indicators : List String :=
  ["President", "Vice-President", "United States Senator", "US Senator", "U.S. Senator",
   "United States Representative", "US Representative", "U.S. Representative",
   "Railroad Commissioner", "Justice, Supreme Court", "Justice,", "Judge,",
   "Presiding Judge", "Member, State BoE", "State Representative", "State Senator",
   "District Attorney", "Dist Attorney", "County Attorney", "County Commissioner",
   "County Clerk", "County Tax", "Sheriff", "Constable", "Board of Trustees",
   "Chief Justice", "Court of Appeals", "Judicial District"]

/-- Header and summary skip terms (fort_bend.py lines 307-311). -/
def skip_terms : List String :=
  ["Vote For", "TOTAL", "VOTE %", "Absentee", "Early", "Election",
   "Voting", "Day", "Total Votes Cast", "Not Assigned", "Contest Totals",
   "Write-In:", "Voter Turnout"]

/-- The precinct pattern `^(\d+)(?:\s*-\s*(\d+))?$`: a precinct number
with an optional sub-precinct. -/
def precinctMatch (l : List Char) : Option String :=
  let d1 := l.takeWhile (fun c => c.isDigit)
  if d1.isEmpty then none
  else
    let rest := l.drop d1.length
    if rest.isEmpty then some ("Precinct " ++ String.mk d1)
    else
      match rest.dropWhile isWS with
      | '-' :: r2 =>
        let r3 := r2.dropWhile isWS
        let d2 := r3.takeWhile (fun c => c.isDigit)
        if !d2.isEmpty && (r3.drop d2.length).isEmpty then
          some ("Precinct " ++ String.mk d1 ++ "-" ++ String.mk d2)
        else none
      | _ => none

/-- District extraction on an office line (fort_bend.py lines 256-266):
`District N`, then `Precinct No. N`, then `Place N`. -/
def districtOf (line : String) : String :=
  match searchPats [Pat.lit "District".data, Pat.ws, Pat.run (fun c => c.isDigit)] line.data with
  | some (d :: _) => String.mk d
  | _ =>
    match searchPats [Pat.lit "Precinct".data, Pat.ws, Pat.lit "No.".data, Pat.ws,
        Pat.run (fun c => c.isDigit)] line.data with
    | some (d :: _) => String.mk d
    | _ =>
      match searchPats [Pat.lit "Place".data, Pat.ws, Pat.run (fun c => c.isDigit)] line.data with
      | some (d :: _) => String.mk d
      | _ => ""

/-- Search `lit` followed by one `[\d,]+` field. -/
def lit1 (lit : String) (line : String) : Option Int :=
  match searchPats [Pat.lit lit.data, Pat.ws, Pat.run isDC] line.data with
  | some (a :: _) => some (pyIntDC a)
  | _ => none

/-- Search `lit` followed by four `[\d,]+` fields. -/
def lit4 (lit : String) (line : String) : Option (Int × Int × Int × Int) :=
  match searchPats [Pat.lit lit.data, Pat.ws, Pat.run isDC, Pat.ws, Pat.run isDC,
      Pat.ws, Pat.run isDC, Pat.ws, Pat.run isDC] line.data with
  | some [a, b, c, d] => some (pyIntDC a, pyIntDC b, pyIntDC c, pyIntDC d)
  | _ => none

/-- The candidate extractor (fort_bend.py lines 319-347): tokenize, find
where the numbers start, and collect the full `[\d,]+` tokens. -/
def candMatch (line : String) : Option (String × String × List Int) :=
  let parts := pyTokens line
  if parts.length ≥ 6 then
    match parts with
    | party :: rest =>
      match rest.findIdx? (fun t => allDC t.data || containsS t "%") with
      | some j0 =>
        let numberStart := j0 + 1
        if numberStart > 1 then
          let candidate := String.intercalate " " (rest.take j0)
          let numbers := ((parts.drop numberStart).filter (fun t => allDC t.data)).map
            (fun t => pyIntS t)
          if numbers.length ≥ 4 then some (party, candidate, numbers) else none
        else none
      | none => none
    | [] => none
  else none

/-- The Write-In Totals extractor (fort_bend.py lines 276-304): numbers
are the full `[\d,]+` tokens after the first two. -/
def writeInMatch (line : String) : Option (List Int) :=
  let parts := pyTokens line
  let numbers := ((parts.drop 2).filter (fun t => allDC t.data)).map (fun t => pyIntS t)
  if numbers.length ≥ 4 then some numbers else none

/-- The candidate branch (fort_bend.py lines 317-366): gated on an
office being set and a leading party token; named write-ins are dropped. -/
def goCand (county : String) (st : St) (prec line : String) : St × List Rec :=
  if st.office.isSome &&
      ["REP", "DEM", "LIB", "GRN", "IND"].any (fun p => startsWithS line p) then
    match candMatch line with
    | some (party, candidate, numbers) =>
      if startsWithS candidate "Write-In:" then (st, [])
      else
        (st, [⟨county, prec, normalize_office_name (st.office.getD ""), st.district,
          party, candidate, numbers.getD 0 0, some (numbers.getD 2 0),
          some (numbers.getD 3 0), some (numbers.getD 1 0)⟩])
    | none => (st, [])
  else (st, [])

/-- The skip-term filter (lines 306-315), then the candidate branch. -/
def goSkip (county : String) (st : St) (prec line : String) : St × List Rec :=
  if skip_terms.any (fun t => containsS line t) then (st, [])
  else goCand county st prec line

/-- The Write-In Totals branch (lines 275-304). -/
def goWrite (county : String) (st : St) (prec line : String) : St × List Rec :=
  if st.office.isSome && startsWithS line "Write-In Totals" then
    match writeInMatch line with
    | some numbers =>
      (st, [⟨county, prec, normalize_office_name (st.office.getD ""), st.district,
        "", "Write-In Totals", numbers.getD 0 0, some (numbers.getD 2 0),
        some (numbers.getD 3 0), some (numbers.getD 1 0)⟩])
    | none => (st, [])
  else goSkip county st prec line

/-- The office-header branch (lines 237-273): on a hit the line is
consumed. -/
def goOffice (county : String) (st : St) (prec line : String) : St × List Rec :=
  if office_indicators.any (fun ind => containsS line ind) then
    ({ st with office := some line, district := districtOf line }, [])
  else goWrite county st prec line

/-- The undervotes branch (lines 212-235). -/
def goUnder (county : String) (st : St) (prec line : String) : St × List Rec :=
  if startsWithS line "Undervotes" && st.office.isSome then
    match lit4 "Undervotes" line with
    | some (total, ed, ab, ev) =>
      (st, [⟨county, prec, normalize_office_name (st.office.getD ""), st.district,
        "", "Under Votes", total, some ab, some ev, some ed⟩])
    | none => (st, [])
  else goOffice county st prec line

/-- The overvotes branch (lines 187-210). -/
def goOver (county : String) (st : St) (prec line : String) : St × List Rec :=
  if startsWithS line "Overvotes" && st.office.isSome then
    match lit4 "Overvotes" line with
    | some (total, ed, ab, ev) =>
      (st, [⟨county, prec, normalize_office_name (st.office.getD ""), st.district,
        "", "Over Votes", total, some ab, some ev, some ed⟩])
    | none => (st, [])
  else goUnder county st prec line

/-- The blank-ballots branch (lines 161-185). -/
def goBlank (county : String) (st : St) (prec line : String) : St × List Rec :=
  if containsS line "Ballots Cast - Blank" then
    match lit4 "Ballots Cast - Blank" line with
    | some (total, ed, ab, ev) =>
      if (prec ++ "_blank") ∈ st.flags then (st, [])
      else ({ st with flags := st.flags ++ [prec ++ "_blank"] },
        [⟨county, prec, "Ballots Cast - Blank", "", "", "", total, some ab, some ev,
          some ed⟩])
    | none => (st, [])
  else goOver county st prec line

/-- The ballots-cast branch (lines 134-159); the Fort Bend number order
is total, election day, absentee, early. -/
def goBC (county : String) (st : St) (prec line : String) : St × List Rec :=
  if containsS line "Ballots Cast - Total" then
    match lit4 "Ballots Cast - Total" line with
    | some (total, ed, ab, ev) =>
      if (prec ++ "_ballots") ∈ st.flags then (st, [])
      else ({ st with flags := st.flags ++ [prec ++ "_ballots"] },
        [⟨county, prec, "Ballots Cast", "", "", "", total, some ab, some ev, some ed⟩])
    | none => (st, [])
  else goBlank county st prec line

/-- The registered-voters branch (lines 112-132). -/
def goRV (county : String) (st : St) (prec line : String) : St × List Rec :=
  if containsS line "Registered Voters - Total" then
    match lit1 "Registered Voters - Total" line with
    | some n =>
      if (prec ++ "_registered") ∈ st.flags then (st, [])
      else ({ st with flags := st.flags ++ [prec ++ "_registered"] },
        [⟨county, prec, "Registered Voters", "", "", "", n, none, none, none⟩])
    | none => (st, [])
  else goBC county st prec line

/-- The statistics-header skip (lines 107-110). -/
def goStats (county : String) (st : St) (prec line : String) : St × List Rec :=
  if line = "STATISTICS" then (st, [])
  else goRV county st prec line

/-- Drop lines seen before the first precinct header (lines 102-105). -/
def goHave (county : String) (st : St) (line : String) : St × List Rec :=
  match st.precinct with
  | none => (st, [])
  | some prec => goStats county st prec line

/-- The precinct-header branch (lines 90-100): replace the precinct and
reset the per-precinct statistics flags. -/
def goPrec (county : String) (st : St) (line : String) : St × List Rec :=
  match precinctMatch line.data with
  | some prec => ({ st with precinct := some prec, flags := [] }, [])
  | none => goHave county st line

/-- One iteration of the line loop of fort_bend.py `parse_election_data`. -/
def step (county : String) (st : St) (line0 : String) : St × List Rec :=
  if pyStrip line0 = "" then (st, [])
  else goPrec county st (pyStrip line0)

/-- The complete scan of fort_bend.py `parse_election_data`. -/
def run (county : String) (lines : List String) : List Rec :=
  (lines.foldl (fun acc ln =>
    let p := step county acc.1 ln
    (p.1, acc.2 ++ p.2)) (initSt, [])).2

end FortBend

namespace Greenbox

/-!
Embedding of `src/python-parsers/greenbox.py` (`parse_election_data`).
The precinct-summary regex of greenbox is rendered at token level: its
capture groups are delimited by the `N of M registered voters` anchor,
with the greedy optional group taking the rightmost anchor.
-/

/-- One output record of the greenbox parser. -/
structure Rec where
  county : String
  precinct : String
  office : String
  district : String
  party : String
  candidate : String
  votes : Int
  absentee : Option Int
  early_voting : Option Int
  election_day : Option Int
deriving DecidableEq

/-- The scan state, with the `precinct_added` set. -/
structure St where
  precinct : Option String
  office : Option String
  district : String
  added : List String
deriving DecidableEq

/-- Initial scan state. -/
def initSt : St := ⟨none, none, "", []⟩

/-- `normalize_office_name` of greenbox.py. -/
def normalize_office_name (office0 : String) : String :=
  let office := pyStrip office0
  if containsS office "President and Vice President" ||
      containsS office "President and Vice-President" then "President"
  else if containsS office "President/Vice President" then "President"
  else if containsS office "President/Vice-President" then "President"
  else if containsS office "United States Senator" then "U.S. Senate"
  else if containsS office "U.S. Senator" then "U.S. Senate"
  else if containsS office "United States Representative" then "U.S. House"
  else if containsS office "U.S. Representative" then "U.S. House"
  else if containsS office "State Senator" then "State Senate"
  else if containsS office "State Representative" && !(containsS office "Unexpired Term") then
    "State Representative"
  else if containsS office "Chief Justice, 13th Court of Appeals" then
    "Chief Justice, 13th Court of Appeals District"
  else if containsS office "Chief Justice, 10th Court of Appeals" then
    "Chief Justice, 10th Court of Appeals District"
  else if containsS office "Chief Justice, 11th Court of Appeals District" then
    "Chief Justice, 11th Court of Appeals District"
  else office

/-- Case-insensitive prefix match where a regex `.` matches any character
(the greenbox office patterns are used with `re.match` and `IGNORECASE`). -/
def rePrefix : List Char → List Char → Bool
  | [], _ => true
  | _ :: _, [] => false
  | p :: ps, c :: cs => (p = '.' || p.toLower = c.toLower) && rePrefix ps cs

/-- The literal office prefixes of greenbox.py lines 68-98 (their
`[^\n]*` tails do not constrain a prefix match). -/
def office_list : List String :=
  ["President and Vice President", "President and Vice-President",
   "President/Vice President", "President/Vice-President",
   "United States Senator", "U.S. Senator", "United States Representative",
   "U.S. Representative", "Railroad Commissioner", "Justice", "Judge", "Member",
   "State Representative", "Chief Justice, 13th Court of Appeals District",
   "Chief Justice, 10th Court of Appeals District",
   "Chief Justice, 11th Court of Appeals District", "District Judge",
   "District Attorney", "County ", "Sheriff", "District Clerk", "Presiding Judge",
   "County Attorney", "County Clerk", "County Tax Assessor-Collector",
   "County Constable", "Constable", "HEADWATER GROUNDWATER CONSERVATION DISTRICT"]

/-- Whether some office pattern matches at the start of the line
(`PROPOSITION [A-Z]` needs a letter after the blank). -/
def officeHit (line : String) : Bool :=
  office_list.any (fun p => rePrefix p.data line.data) ||
  (rePrefix "PROPOSITION ".data line.data &&
    match (line.data.drop 12).head? with
    | some c => c.isAlpha
    | none => false)

/-- Python `str.title()`. -/
def titleL : Bool → List Char → List Char
  | _, [] => []
  | prevAlpha, c :: cs =>
    (if c.isAlpha then (if prevAlpha then c.toLower else c.toUpper) else c) ::
      titleL c.isAlpha cs

/-- `line.title()` as a string. -/
def titleS (s : String) : String := String.mk (titleL false s.data)

/-- The capture of `District.*\s+(\d+)`: the rightmost digit run preceded
by whitespace after the first `District` occurrence. -/
def gbLastNum (l : List Char) : Option String :=
  let starts := (List.range l.length).filter (fun j =>
    decide (1 ≤ j) && isWS (l.getD (j - 1) 'a') && (l.getD j 'a').isDigit)
  match starts.getLast? with
  | some j => some (String.mk ((l.drop j).takeWhile (fun c => c.isDigit)))
  | none => none

/-- District extraction on an office line (greenbox.py lines 159-165). -/
def districtOf (line : String) : String :=
  let t := (titleS line).data
  match findSub t "District".data with
  | some i =>
    match gbLastNum (t.drop (i + 8)) with
    | some d => d
    | none =>
      if containsS line "Place" then
        match searchPats [Pat.lit "Place".data, Pat.ws, Pat.run (fun c => c.isDigit)] t with
        | some (d :: _) => String.mk d
        | _ => ""
      else ""
  | none =>
    if containsS line "Place" then
      match searchPats [Pat.lit "Place".data, Pat.ws, Pat.run (fun c => c.isDigit)] t with
      | some (d :: _) => String.mk d
      | _ => ""
    else ""

/-- Token-level rendering of the precinct-summary regex
`^(\d+?(?:\s*-\s*[\w\s]+)?)\s+([\d,]+)\s+of\s+([\d,]+)\s+registered\s+voters`:
the rightmost `N of M registered voters` anchor delimits the greedy
precinct group, which must start with a digit. -/
def precinctMatch (line : String) : Option (String × Int × Int) :=
  let toks := pyTokens line
  let ok := fun (i : Nat) =>
    decide (2 ≤ i) && toks.getD i "" = "of" && allDC (toks.getD (i - 1) "").data &&
      allDC (toks.getD (i + 1) "").data && toks.getD (i + 2) "" = "registered" &&
      startsWithS (toks.getD (i + 3) "") "voters" && decide (i + 3 < toks.length)
  match ((List.range toks.length).filter ok).getLast? with
  | some i =>
    match line.data.head? with
    | some c =>
      if c.isDigit then
        some (pyStrip (String.intercalate " " (toks.take (i - 1))),
          pyIntS (toks.getD (i - 1) ""), pyIntS (toks.getD (i + 1) ""))
      else none
    | none => none
  | none => none

/-- The greenbox candidate parties. -/
def parties : List String := ["REP", "DEM", "LIB", "GRN", "IND", "(W)"]

/-- Numeric tail of the greenbox candidate pattern at a token suffix:
`([\d,]+)\s+[\d.]+%\s+([\d,]+)\s+[\d.]+%\s+([\d,]+)\s+[\d.]+%\s+([\d,]+)\s+[\d.]+%`
with the final percentage unanchored. -/
def gbTail : List (List Char) → Option (Int × Int × Int × Int)
  | n1 :: p1 :: n2 :: p2 :: n3 :: p3 :: n4 :: p4 :: _ =>
    if allDC n1 && pctTok p1 && allDC n2 && pctTok p2 && allDC n3 && pctTok p3 &&
        allDC n4 && pctLead p4 then
      some (pyIntDC n1, pyIntDC n2, pyIntDC n3, pyIntDC n4)
    else none
  | _ => none

/-- Leftmost split for the lazy name group of the candidate pattern: scan
for the first party token whose tail matches, with a nonempty name. -/
def gbFind (name : List (List Char)) :
    List (List Char) → Option (List (List Char) × String × (Int × Int × Int × Int))
  | [] => none
  | t :: ts =>
    match name, (if parties.any (fun q => q.data = t) then gbTail ts else none) with
    | n :: ns, some v => some (n :: ns, String.mk t, v)
    | _, _ => gbFind (name ++ [t]) ts

/-- The candidate pattern (greenbox.py line 183). -/
def candMatch (line : String) : Option (String × String × (Int × Int × Int × Int)) :=
  match gbFind [] (toksL line.data) with
  | some (name, party, v) =>
    some (pyStrip (String.intercalate " " (name.map String.mk)), party, v)
  | none => none

/-- `findall(r'\d+', ...)` after deleting every occurrence of `lit`. -/
def numsAfterRemove (line : String) (lit : String) : List (List Char) :=
  runsOf (fun c => c.isDigit)
    ((splitAllL (line.data.length + 1) line.data lit.data).foldr (· ++ ·) [])

/-- The overvotes branch (greenbox.py lines 240-260). -/
def goOverB (county : String) (st : St) (prec office line : String) : St × List Rec :=
  if startsWithS line "Overvotes:" then
    let nums := numsAfterRemove line "Overvotes:"
    if nums.length ≥ 4 then
      (st, [⟨county, prec, normalize_office_name office, st.district, "",
        "Over Votes", (digitsVal (nums.getD 3 []) : Int),
        some (digitsVal (nums.getD 0 []) : Int),
        some (digitsVal (nums.getD 1 []) : Int),
        some (digitsVal (nums.getD 2 []) : Int)⟩])
    else (st, [])
  else (st, [])

/-- The undervotes branch (greenbox.py lines 218-238). -/
def goUnderB (county : String) (st : St) (prec office line : String) : St × List Rec :=
  if startsWithS line "Undervotes:" then
    let nums := numsAfterRemove line "Undervotes:"
    if nums.length ≥ 4 then
      (st, [⟨county, prec, normalize_office_name office, st.district, "",
        "Under Votes", (digitsVal (nums.getD 3 []) : Int),
        some (digitsVal (nums.getD 0 []) : Int),
        some (digitsVal (nums.getD 1 []) : Int),
        some (digitsVal (nums.getD 2 []) : Int)⟩])
    else (st, [])
  else goOverB county st prec office line

/-- The Cast Votes skip (greenbox.py lines 214-216). -/
def goCast (county : String) (st : St) (prec office line : String) : St × List Rec :=
  if startsWithS line "Cast Votes:" then (st, [])
  else goUnderB county st prec office line

/-- The candidate branch (greenbox.py lines 182-212): named write-ins —
party `(W)` with a name longer than ten characters — are dropped. -/
def goCandB (county : String) (st : St) (prec office line : String) : St × List Rec :=
  match candMatch line with
  | some (name, party, v) =>
    if containsS party "(W)" && name.length > 10 then (st, [])
    else
      (st, [⟨county, prec, normalize_office_name office, st.district, party, name,
        v.2.2.2, some v.1, some v.2.1, some v.2.2.1⟩])
  | none => goCast county st prec office line

/-- The header skip (greenbox.py lines 173-180). -/
def goHdr (county : String) (st : St) (prec office line : String) : St × List Rec :=
  if containsS line "Choice Party Absentee Voting" || containsS line "Not Assigned" ||
      containsS line "Rejected write-in votes" ||
      containsS line "Unresolved write-in votes" ||
      containsS line "Contest Totals" then (st, [])
  else goCandB county st prec office line

/-- Drop lines without full context (greenbox.py lines 170-171). -/
def goCtx (county : String) (st : St) (line : String) : St × List Rec :=
  match st.office, st.precinct with
  | some office, some prec => goHdr county st prec office line
  | _, _ => (st, [])

/-- The office-header check (greenbox.py lines 152-168): sets the office
and falls through on the same line. -/
def goOfficeB (county : String) (st : St) (line : String) : St × List Rec :=
  if officeHit line then
    goCtx county { st with office := some line, district := districtOf line } line
  else goCtx county st line

/-- The precinct-summary branch (greenbox.py lines 106-150). -/
def goPrecB (county : String) (st : St) (line : String) : St × List Rec :=
  match precinctMatch line with
  | some (rawPrec, ballots, reg) =>
    if rawPrec ∈ st.added then ({ st with precinct := some rawPrec }, [])
    else
      ({ st with precinct := some rawPrec, added := st.added ++ [rawPrec] },
        [⟨county, rawPrec, "Registered Voters", "", "", "", reg, none, none, none⟩,
         ⟨county, rawPrec, "Ballots Cast", "", "", "", ballots, none, none, none⟩])
  | none => goOfficeB county st line

/-- One iteration of the line loop of greenbox.py `parse_election_data`. -/
def step (county : String) (st : St) (line0 : String) : St × List Rec :=
  if pyStrip line0 = "" then (st, [])
  else goPrecB county st (pyStrip line0)

/-- The complete scan of greenbox.py `parse_election_data`. -/
def run (county : String) (lines : List String) : List Rec :=
  (lines.foldl (fun acc ln =>
    let p := step county acc.1 ln
    (p.1, acc.2 ++ p.2)) (initSt, [])).2

end Greenbox

/-! ### Helper lemmas on the string and sorting utilities -/

namespace StrUtil

theorem mem_insertLt {α : Type} (lt : α → α → Bool) (x a : α) (l : List α) :
    a ∈ insertLt lt x l ↔ a = x ∨ a ∈ l := by
  induction l with
  | nil => simp [insertLt]
  | cons y ys ih =>
    by_cases h : lt x y = true
    · simp only [insertLt, h, if_pos, List.mem_cons]
    · simp only [insertLt, h, if_neg, Bool.not_eq_true, List.mem_cons, ih]
      tauto

theorem mem_pySort {α : Type} (lt : α → α → Bool) (a : α) (l : List α) :
    a ∈ pySort lt l ↔ a ∈ l := by
  suffices h : ∀ acc, a ∈ l.foldl (fun acc x => insertLt lt x acc) acc ↔ a ∈ acc ∨ a ∈ l by
    have := h []
    simpa [pySort] using this
  induction l with
  | nil => simp
  | cons y ys ih =>
    intro acc
    simp only [List.foldl_cons, ih, mem_insertLt, List.mem_cons]
    tauto

theorem pairwise_insertLt {α : Type} (lt : α → α → Bool)
    (hasym : ∀ a b, lt a b = true → lt b a = false)
    (htrans : ∀ a b c, lt b a = false → lt c b = false → lt c a = false)
    (x : α) (l : List α) (hl : l.Pairwise (fun a b => lt b a = false)) :
    (insertLt lt x l).Pairwise (fun a b => lt b a = false) := by
  induction l with
  | nil => simp [insertLt]
  | cons y ys ih =>
    rcases List.pairwise_cons.mp hl with ⟨hy, hys⟩
    by_cases h : lt x y = true
    · simp only [insertLt, h, if_pos]
      refine List.pairwise_cons.mpr ⟨?_, hl⟩
      intro z hz
      rcases List.mem_cons.mp hz with rfl | hz
      · exact hasym _ _ h
      · exact htrans _ _ _ (hasym _ _ h) (hy z hz)
    · have hxy : lt x y = false := Bool.eq_false_iff.mpr h
      simp only [insertLt, h, if_neg, Bool.not_eq_true]
      refine List.pairwise_cons.mpr ⟨?_, ih hys⟩
      intro z hz
      rcases (mem_insertLt lt x z ys).mp hz with rfl | hz
      · exact hxy
      · exact hy z hz

theorem pairwise_pySort {α : Type} (lt : α → α → Bool)
    (hasym : ∀ a b, lt a b = true → lt b a = false)
    (htrans : ∀ a b c, lt b a = false → lt c b = false → lt c a = false)
    (l : List α) :
    (pySort lt l).Pairwise (fun a b => lt b a = false) := by
  suffices h : ∀ acc, acc.Pairwise (fun a b => lt b a = false) →
      (l.foldl (fun acc x => insertLt lt x acc) acc).Pairwise (fun a b => lt b a = false) by
    exact h [] (by simp)
  induction l with
  | nil => intro acc hacc; simpa using hacc
  | cons y ys ih =>
    intro acc hacc
    exact ih _ (pairwise_insertLt lt hasym htrans y acc hacc)

end StrUtil

namespace StrUtil

theorem findSub_isSome_mono (pat pat' : List Char) (hp : pat' <+: pat) :
    ∀ l : List Char, (findSub l pat).isSome = true → (findSub l pat').isSome = true := by
  intro l
  induction l with
  | nil =>
    simp only [findSub]
    intro h
    have hpe : pat.isEmpty = true := by
      by_cases he : pat.isEmpty = true
      · exact he
      · simp [he] at h
    have : pat = [] := by simpa [List.isEmpty_iff] using hpe
    subst this
    have : pat' = [] := List.prefix_nil.mp hp
    simp [this]
  | cons c cs ih =>
    simp only [findSub]
    by_cases h1 : pat.isPrefixOf (c :: cs) = true
    · intro _
      have h2 : pat'.isPrefixOf (c :: cs) = true := by
        rw [List.isPrefixOf_iff_prefix] at h1 ⊢
        exact hp.trans h1
      simp [h2]
    · simp only [h1, if_neg, Bool.not_eq_true]
      intro h
      have h3 : (findSub cs pat).isSome = true := by
        simpa using h
      have h4 := ih h3
      by_cases h5 : pat'.isPrefixOf (c :: cs) = true
      · simp [h5]
      · simp only [h5, if_neg, Bool.not_eq_true]
        rcases Option.isSome_iff_exists.mp h4 with ⟨y, hy⟩
        simp [hy]

theorem containsL_mono (l pat pat' : List Char) (hp : pat' <+: pat)
    (h : containsL l pat = true) : containsL l pat' = true :=
  findSub_isSome_mono pat pat' hp l h

end StrUtil

/-! ### Claims C3 and C4: party resolution and office normalization -/

/-- C3 (counterexample): on the concrete input `"John Smith (I)"` the
claimed output candidate `"John Smith (I)"` is wrong: the code returns
candidate `"John Smith"` because no meaningful text follows the marker. -/
theorem claim_C3_counterexample :
    Clarity.parse_candidate_party "John Smith (I)" = ("John Smith", some "I") ∧
    ("John Smith" : String) ≠ "John Smith (I)" := by
  constructor
  · rfl
  · decide

/-- C3 (amended): independent markers are checked before the generic
parenthesized-party rule — any candidate text whose stripped form
contains `"(I)"` resolves to party `"I"` — and on the concrete inputs:
`"Jane Doe (I)(I)"` gives candidate `"Jane Doe"` with party `"I"`;
`"John Smith (I)"` gives candidate `"John Smith"` (not
`"John Smith (I)"`) with party `"I"`; `"John Smith (REP)"` gives
candidate `"John Smith"` with party `"REP"`.  The statewide variant of
the same rule keeps the `" (I)"` suffix but yields the empty party. -/
theorem claim_C3_amended :
    (∀ s : String, containsS (pyStrip s) "(I)" = true →
      (Clarity.parse_candidate_party s).2 = some "I") ∧
    Clarity.parse_candidate_party "Jane Doe (I)(I)" = ("Jane Doe", some "I") ∧
    Clarity.parse_candidate_party "John Smith (I)" = ("John Smith", some "I") ∧
    Clarity.parse_candidate_party "John Smith (REP)" = ("John Smith", some "REP") ∧
    Clarity.statewide_candidate "John Smith (I)" = ("John Smith (I)", "") := by
  refine ⟨?_, by rfl, by rfl, by rfl, by rfl⟩
  intro s h
  have h1 : containsS (pyStrip s) "(" = true := by
    refine containsL_mono _ _ _ ?_ h
    exact ⟨['I', ')'], rfl⟩
  unfold Clarity.parse_candidate_party
  simp only [h1, h, if_pos]
  by_cases h2 : containsS (pyStrip s) "(I)(I)" = true <;> simp [h2]

/-- C3 (witness): the rule-order conjunct applied at a concrete input. -/
theorem claim_C3_witness :
    containsS (pyStrip "Ann Brown (I)") "(I)" = true ∧
    (Clarity.parse_candidate_party "Ann Brown (I)").2 = some "I" :=
  ⟨by rfl, claim_C3_amended.1 "Ann Brown (I)" (by rfl)⟩

/-- C4 (counterexample): the clarity office normalizer does not reduce
`"State Representative, District 14 - REP"` to `"State Representative"`:
the comma branch is shadowed by the `" - "` branch, so the district
qualifier stays in the office text. -/
theorem claim_C4_counterexample :
    (Clarity.parse_office "State Representative, District 14 - REP").1 =
      "State Representative, District 14" ∧
    ("State Representative, District 14" : String) ≠ "State Representative" := by
  constructor
  · rfl
  · decide

/-- C4 (amended): clarity maps `"President/Vice President"` to
`("President", none)`, but maps
`"State Representative, District 14 - REP"` to
`("State Representative, District 14", "14")` — the canonical office
keeps the district qualifier; it is collin whose normalizer returns
`"State Representative"` for that input, with its district extractor
yielding `"14"`. -/
theorem claim_C4_amended :
    Clarity.parse_office "President/Vice President" = ("President", none) ∧
    Clarity.parse_office "State Representative, District 14 - REP" =
      ("State Representative, District 14", some "14") ∧
    Collin.normalize_office_name "State Representative, District 14 - REP" =
      "State Representative" ∧
    Collin.districtOf "State Representative, District 14 - REP" = "14" ∧
    Collin.normalize_office_name "President/Vice President" = "President" ∧
    Collin.districtOf "President/Vice President" = "" :=
  ⟨by rfl, by rfl, by rfl, by rfl, by rfl, by rfl⟩

/-! ### Claim C7: missing context drops lines silently -/

namespace Collin

theorem goHave_precinct_none (county : String) (st : St) (line : String)
    (hp : st.precinct = none) : (goHave county st line).2 = [] := by
  unfold goHave
  rw [hp]

theorem step_precinct_none (county : String) (st : St) (line : String)
    (hp : st.precinct = none) : (step county st line).2 = [] := by
  unfold step
  split
  · rfl
  · unfold goPCT
    split
    · split
      · rfl
      · exact goHave_precinct_none county st _ hp
    · exact goHave_precinct_none county st _ hp

theorem goOffice_office_none (county : String) (st : St) (prec line : String)
    (ho : st.office = none) : (goOffice county st prec line).2 = [] := by
  unfold goOffice
  split
  · rfl
  · unfold goHaveOffice
    rw [ho]

theorem goHave_office_none (county : String) (st : St) (line : String)
    (ho : st.office = none) : (goHave county st line).2 = [] := by
  unfold goHave
  split
  · rfl
  · exact goOffice_office_none county st _ _ ho

theorem step_office_none (county : String) (st : St) (line : String)
    (ho : st.office = none) : (step county st line).2 = [] := by
  unfold step
  split
  · rfl
  · unfold goPCT
    split
    · split
      · rfl
      · exact goHave_office_none county st _ ho
    · exact goHave_office_none county st _ ho

end Collin

/-- C7: while no precinct header has been seen every line is inert, and
while no office header has been seen every non-header line is inert: the
scan emits no record and raises no error, by design. -/
theorem claim_C7 :
    (∀ (county : String) (st : Collin.St) (line : String), st.precinct = none →
      (Collin.step county st line).2 = []) ∧
    (∀ (county : String) (st : Collin.St) (line : String), st.office = none →
      (Collin.step county st line).2 = []) :=
  ⟨Collin.step_precinct_none, Collin.step_office_none⟩

/-- C7 (witness): a partisan candidate line with full vote counts is
dropped when no precinct and no office are set. -/
theorem claim_C7_witness :
    (Collin.initSt.precinct = none ∧
      (Collin.step "Collin" Collin.initSt
        "Rep Donald J. Trump/JD Vance 1,036 54.07% 119 886 30 1 0").2 = []) ∧
    (Collin.initSt.office = none ∧
      (Collin.step "Collin" { Collin.initSt with precinct := some "PCT 001" }
        "Rep Donald J. Trump/JD Vance 1,036 54.07% 119 886 30 1 0").2 = []) :=
  ⟨⟨rfl, claim_C7.1 "Collin" Collin.initSt _ rfl⟩,
   ⟨rfl, claim_C7.2 "Collin" { Collin.initSt with precinct := some "PCT 001" } _ rfl⟩⟩

/-! ### Claim C9: named write-in candidates are omitted -/

namespace Ware

/-- The write-in filter of the claim. -/
def noWriteIn (r : Rec) : Bool := !(startsWithS r.candidate "Write-In:")

theorem goCand_nw (county : String) (st : St) (prec office line : String) :
    ((goCand county st prec office line).2).all noWriteIn = true := by
  unfold goCand
  split
  · split
    · rfl
    · rename_i h
      simp only [List.all_cons, List.all_nil, Bool.and_true, noWriteIn]
      rw [Bool.not_eq_true']
      exact Bool.eq_false_iff.mpr h
  · rfl

theorem goSkip_nw (county : String) (st : St) (prec line : String) :
    ((goSkip county st prec line).2).all noWriteIn = true := by
  unfold goSkip
  split
  · rfl
  · split
    · rfl
    · exact goCand_nw ..

theorem goOffice_nw (county : String) (st : St) (prec line : String) :
    ((goOffice county st prec line).2).all noWriteIn = true := by
  unfold goOffice
  split
  · exact goSkip_nw ..
  · exact goSkip_nw ..

theorem goUnder_nw (county : String) (st : St) (prec line : String) :
    ((goUnder county st prec line).2).all noWriteIn = true := by
  unfold goUnder
  split
  · split
    · rfl
    · rfl
  · exact goOffice_nw ..

theorem goOver_nw (county : String) (st : St) (prec line : String) :
    ((goOver county st prec line).2).all noWriteIn = true := by
  unfold goOver
  split
  · split
    · rfl
    · rfl
  · exact goUnder_nw ..

theorem goBlank_nw (county : String) (st : St) (prec line : String) :
    ((goBlank county st prec line).2).all noWriteIn = true := by
  unfold goBlank
  split
  · split
    · split
      · rfl
      · rfl
    · rfl
  · exact goOver_nw ..

theorem goBC_nw (county : String) (st : St) (prec line : String) :
    ((goBC county st prec line).2).all noWriteIn = true := by
  unfold goBC
  split
  · split
    · split
      · rfl
      · rfl
    · rfl
  · exact goBlank_nw ..

theorem goRV_nw (county : String) (st : St) (prec line : String) :
    ((goRV county st prec line).2).all noWriteIn = true := by
  unfold goRV
  split
  · split
    · split
      · rfl
      · rfl
    · rfl
  · exact goBC_nw ..

theorem goStats_nw (county : String) (st : St) (prec line : String) :
    ((goStats county st prec line).2).all noWriteIn = true := by
  unfold goStats
  split
  · rfl
  · exact goRV_nw ..

theorem goHave_nw (county : String) (st : St) (line : String) :
    ((goHave county st line).2).all noWriteIn = true := by
  unfold goHave
  split
  · rfl
  · exact goStats_nw ..

theorem goPrec_nw (county : String) (st : St) (line : String) :
    ((goPrec county st line).2).all noWriteIn = true := by
  unfold goPrec
  split
  · split
    · rfl
    · exact goHave_nw ..
  · exact goHave_nw ..

theorem step_all_no_writein (county : String) (st : St) (line : String) :
    ((step county st line).2).all noWriteIn = true := by
  unfold step
  split
  · rfl
  · exact goPrec_nw ..

theorem no_writein_rec (county : String) (st : St) (line : String) (r : Rec)
    (hr : r ∈ (step county st line).2) :
    startsWithS r.candidate "Write-In:" = false := by
  have h := step_all_no_writein county st line
  rw [List.all_eq_true] at h
  have := h r hr
  simpa [noWriteIn] using this

end Ware

namespace FortBend

/-- The write-in filter of the claim. -/
def noWriteIn (r : Rec) : Bool := !(startsWithS r.candidate "Write-In:")

theorem goCand_nwF (county : String) (st : St) (prec line : String) :
    ((goCand county st prec line).2).all noWriteIn = true := by
  unfold goCand
  split
  · split
    · split
      · rfl
      · rename_i h
        simp only [List.all_cons, List.all_nil, Bool.and_true, noWriteIn]
        rw [Bool.not_eq_true']
        exact Bool.eq_false_iff.mpr h
    · rfl
  · rfl

theorem goSkip_nwF (county : String) (st : St) (prec line : String) :
    ((goSkip county st prec line).2).all noWriteIn = true := by
  unfold goSkip
  split
  · rfl
  · exact goCand_nwF ..

theorem goWrite_nwF (county : String) (st : St) (prec line : String) :
    ((goWrite county st prec line).2).all noWriteIn = true := by
  unfold goWrite
  split
  · split
    · rfl
    · rfl
  · exact goSkip_nwF ..

theorem goOffice_nwF (county : String) (st : St) (prec line : String) :
    ((goOffice county st prec line).2).all noWriteIn = true := by
  unfold goOffice
  split
  · rfl
  · exact goWrite_nwF ..

theorem goUnder_nwF (county : String) (st : St) (prec line : String) :
    ((goUnder county st prec line).2).all noWriteIn = true := by
  unfold goUnder
  split
  · split <;> rfl
  · exact goOffice_nwF ..

theorem goOver_nwF (county : String) (st : St) (prec line : String) :
    ((goOver county st prec line).2).all noWriteIn = true := by
  unfold goOver
  split
  · split <;> rfl
  · exact goUnder_nwF ..

theorem goBlank_nwF (county : String) (st : St) (prec line : String) :
    ((goBlank county st prec line).2).all noWriteIn = true := by
  unfold goBlank
  split
  · split
    · split <;> rfl
    · rfl
  · exact goOver_nwF ..

theorem goBC_nwF (county : String) (st : St) (prec line : String) :
    ((goBC county st prec line).2).all noWriteIn = true := by
  unfold goBC
  split
  · split
    · split <;> rfl
    · rfl
  · exact goBlank_nwF ..

theorem goRV_nwF (county : String) (st : St) (prec line : String) :
    ((goRV county st prec line).2).all noWriteIn = true := by
  unfold goRV
  split
  · split
    · split <;> rfl
    · rfl
  · exact goBC_nwF ..

theorem goStats_nwF (county : String) (st : St) (prec line : String) :
    ((goStats county st prec line).2).all noWriteIn = true := by
  unfold goStats
  split
  · rfl
  · exact goRV_nwF ..

theorem goHave_nwF (county : String) (st : St) (line : String) :
    ((goHave county st line).2).all noWriteIn = true := by
  unfold goHave
  split
  · rfl
  · exact goStats_nwF ..

theorem goPrec_nwF (county : String) (st : St) (line : String) :
    ((goPrec county st line).2).all noWriteIn = true := by
  unfold goPrec
  split
  · rfl
  · exact goHave_nwF ..

theorem step_all_no_writeinF (county : String) (st : St) (line : String) :
    ((step county st line).2).all noWriteIn = true := by
  unfold step
  split
  · rfl
  · exact goPrec_nwF ..

end FortBend

namespace Greenbox

/-- The greenbox write-in filter of the claim: a `(W)` record keeps a
short candidate name. -/
def shortW (r : Rec) : Bool := !(r.party = "(W)" && r.candidate.length > 10)

theorem goOverB_sw (county : String) (st : St) (prec office line : String) :
    ((goOverB county st prec office line).2).all shortW = true := by
  unfold goOverB
  split
  · dsimp only
    split <;> rfl
  · rfl

theorem goUnderB_sw (county : String) (st : St) (prec office line : String) :
    ((goUnderB county st prec office line).2).all shortW = true := by
  unfold goUnderB
  split
  · dsimp only
    split <;> rfl
  · exact goOverB_sw ..

theorem goCast_sw (county : String) (st : St) (prec office line : String) :
    ((goCast county st prec office line).2).all shortW = true := by
  unfold goCast
  split
  · rfl
  · exact goUnderB_sw ..

theorem goCandB_sw (county : String) (st : St) (prec office line : String) :
    ((goCandB county st prec office line).2).all shortW = true := by
  unfold goCandB
  split
  · split
    · rfl
    · rename_i name party v heq h
      simp only [List.all_cons, List.all_nil, Bool.and_true, shortW]
      rw [Bool.not_eq_true']
      have hb : (containsS party "(W)" && decide (name.length > 10)) = false :=
        Bool.eq_false_iff.mpr h
      by_cases hp : party = "(W)"
      · subst hp
        have hc : containsS "(W)" "(W)" = true := by rfl
        rw [hc, Bool.true_and] at hb
        simp [hb]
      · simp [hp]
  · exact goCast_sw ..

theorem goHdr_sw (county : String) (st : St) (prec office line : String) :
    ((goHdr county st prec office line).2).all shortW = true := by
  unfold goHdr
  split
  · rfl
  · exact goCandB_sw ..

theorem goCtx_sw (county : String) (st : St) (line : String) :
    ((goCtx county st line).2).all shortW = true := by
  unfold goCtx
  split
  · exact goHdr_sw ..
  · rfl

theorem goOfficeB_sw (county : String) (st : St) (line : String) :
    ((goOfficeB county st line).2).all shortW = true := by
  unfold goOfficeB
  split
  · exact goCtx_sw ..
  · exact goCtx_sw ..

theorem goPrecB_sw (county : String) (st : St) (line : String) :
    ((goPrecB county st line).2).all shortW = true := by
  unfold goPrecB
  split
  · split <;> rfl
  · exact goOfficeB_sw ..

theorem step_all_shortW (county : String) (st : St) (line : String) :
    ((step county st line).2).all shortW = true := by
  unfold step
  split
  · rfl
  · exact goPrecB_sw ..

end Greenbox

/-- C9: in all three line parsers named write-in candidates never reach
the output: every record the electionware or fort_bend step emits has a
candidate not starting with `"Write-In:"`, and every record the greenbox
step emits with party `"(W)"` has a candidate name of at most ten
characters. -/
theorem claim_C9 :
    (∀ (county : String) (st : Ware.St) (line : String) (r : Ware.Rec),
      r ∈ (Ware.step county st line).2 →
        startsWithS r.candidate "Write-In:" = false) ∧
    (∀ (county : String) (st : FortBend.St) (line : String) (r : FortBend.Rec),
      r ∈ (FortBend.step county st line).2 →
        startsWithS r.candidate "Write-In:" = false) ∧
    (∀ (county : String) (st : Greenbox.St) (line : String) (r : Greenbox.Rec),
      r ∈ (Greenbox.step county st line).2 → r.party = "(W)" →
        r.candidate.length ≤ 10) := by
  refine ⟨fun county st line r hr => Ware.no_writein_rec county st line r hr,
    fun county st line r hr => ?_, fun county st line r hr hw => ?_⟩
  · have h := FortBend.step_all_no_writeinF county st line
    rw [List.all_eq_true] at h
    have := h r hr
    simpa [FortBend.noWriteIn] using this
  · have h := Greenbox.step_all_shortW county st line
    rw [List.all_eq_true] at h
    have := h r hr
    simp only [Greenbox.shortW, Bool.not_eq_true', Bool.and_eq_false_iff] at this
    rcases this with h1 | h1
    · exact absurd hw (by simpa using h1)
    · simpa using Nat.le_of_not_lt (by simpa using h1)

/-- C9 (witness): the three conjuncts applied to the concrete records
emitted by concrete candidate lines. -/
theorem claim_C9_witness :
    ((⟨"Ham", "Precinct 1", "Sheriff", "", "REP", "John Q", 5, some 1, some 2,
        some 2⟩ : Ware.Rec) ∈
      (Ware.step "Ham" ⟨some "Precinct 1", some "Sheriff", "", []⟩
        "REP John Q 5 1 2 2").2 ∧
      startsWithS "John Q" "Write-In:" = false) ∧
    ((⟨"FB", "Precinct 1", "Sheriff", "", "REP", "John Q", 5, some 2, some 2,
        some 1⟩ : FortBend.Rec) ∈
      (FortBend.step "FB" ⟨some "Precinct 1", some "Sheriff", "", []⟩
        "REP John Q 5 59.29% 1 2 2").2 ∧
      startsWithS "John Q" "Write-In:" = false) ∧
    ((⟨"GB", "101", "Sheriff", "", "(W)", "Write-in", 8, some 5, some 1,
        some 2⟩ : Greenbox.Rec) ∈
      (Greenbox.step "GB" ⟨some "101", some "Sheriff", "", ["101"]⟩
        "Write-in (W) 5 1.00% 1 1.00% 2 1.00% 8 1.00%").2 ∧
      ("Write-in" : String).length ≤ 10) :=
  ⟨⟨by decide, claim_C9.1 "Ham" ⟨some "Precinct 1", some "Sheriff", "", []⟩
      "REP John Q 5 1 2 2"
      ⟨"Ham", "Precinct 1", "Sheriff", "", "REP", "John Q", 5, some 1, some 2, some 2⟩
      (by decide)⟩,
   ⟨by decide, claim_C9.2.1 "FB" ⟨some "Precinct 1", some "Sheriff", "", []⟩
      "REP John Q 5 59.29% 1 2 2"
      ⟨"FB", "Precinct 1", "Sheriff", "", "REP", "John Q", 5, some 2, some 2, some 1⟩
      (by decide)⟩,
   ⟨by decide, claim_C9.2.2 "GB" ⟨some "101", some "Sheriff", "", ["101"]⟩
      "Write-in (W) 5 1.00% 1 1.00% 2 1.00% 8 1.00%"
      ⟨"GB", "101", "Sheriff", "", "(W)", "Write-in", 8, some 5, some 1, some 2⟩
      (by decide) (by rfl)⟩⟩

/-! ### Claim C8: per-precinct statistics flags -/

namespace FortBend

theorem goCand_precinctF (county : String) (st : St) (prec line : String) :
    (goCand county st prec line).1 = st := by
  unfold goCand
  split
  · split
    · split <;> rfl
    · rfl
  · rfl

theorem goSkip_precinctF (county : String) (st : St) (prec line : String) :
    (goSkip county st prec line).1 = st := by
  unfold goSkip
  split
  · rfl
  · exact goCand_precinctF ..

theorem goWrite_precinctF (county : String) (st : St) (prec line : String) :
    (goWrite county st prec line).1 = st := by
  unfold goWrite
  split
  · split <;> rfl
  · exact goSkip_precinctF ..

theorem goOffice_precinctF (county : String) (st : St) (prec line : String) :
    (goOffice county st prec line).1.precinct = st.precinct ∧
    (goOffice county st prec line).1.flags = st.flags := by
  unfold goOffice
  split
  · exact ⟨rfl, rfl⟩
  · rw [goWrite_precinctF]
    exact ⟨rfl, rfl⟩

theorem goUnder_precinctF (county : String) (st : St) (prec line : String) :
    (goUnder county st prec line).1.precinct = st.precinct ∧
    (goUnder county st prec line).1.flags = st.flags := by
  unfold goUnder
  split
  · split <;> exact ⟨rfl, rfl⟩
  · exact goOffice_precinctF ..

theorem goOver_precinctF (county : String) (st : St) (prec line : String) :
    (goOver county st prec line).1.precinct = st.precinct ∧
    (goOver county st prec line).1.flags = st.flags := by
  unfold goOver
  split
  · split <;> exact ⟨rfl, rfl⟩
  · exact goUnder_precinctF ..

theorem goBlank_precinctF (county : String) (st : St) (prec line : String) :
    (goBlank county st prec line).1.precinct = st.precinct := by
  unfold goBlank
  split
  · split
    · split <;> rfl
    · rfl
  · exact (goOver_precinctF ..).1

theorem goBC_precinctF (county : String) (st : St) (prec line : String) :
    (goBC county st prec line).1.precinct = st.precinct := by
  unfold goBC
  split
  · split
    · split <;> rfl
    · rfl
  · exact goBlank_precinctF ..

theorem goRV_precinctF (county : String) (st : St) (prec line : String) :
    (goRV county st prec line).1.precinct = st.precinct := by
  unfold goRV
  split
  · split
    · split <;> rfl
    · rfl
  · exact goBC_precinctF ..

theorem goStats_precinctF (county : String) (st : St) (prec line : String) :
    (goStats county st prec line).1.precinct = st.precinct := by
  unfold goStats
  split
  · rfl
  · exact goRV_precinctF ..

theorem goHave_precinctF (county : String) (st : St) (line : String) :
    (goHave county st line).1.precinct = st.precinct := by
  unfold goHave
  split
  · rfl
  · exact goStats_precinctF ..

theorem goHave_eqF (county : String) (st : St) (line p : String)
    (hp : st.precinct = some p) :
    goHave county st line = goStats county st p line := by
  unfold goHave
  rw [hp]

theorem goPrec_new_precinct_clears (county : String) (st : St) (line : String)
    (h : (goPrec county st line).1.precinct ≠ st.precinct) :
    (goPrec county st line).1.flags = [] := by
  unfold goPrec at h ⊢
  split at h
  · rfl
  · exact absurd (goHave_precinctF ..) h

/-- A fort_bend step that replaces the precinct clears the flag set. -/
theorem step_new_precinct_clears (county : String) (st : St) (line : String)
    (h : (step county st line).1.precinct ≠ st.precinct) :
    (step county st line).1.flags = [] := by
  unfold step at h ⊢
  by_cases he : pyStrip line = ""
  · rw [if_pos he] at h
    exact absurd rfl h
  · rw [if_neg he] at h ⊢
    exact goPrec_new_precinct_clears county st _ h

/-- A registered-voters line whose flag is already set emits nothing. -/
theorem goRV_dedupF (county : String) (st : St) (line p : String)
    (hf : (p ++ "_registered") ∈ st.flags)
    (hc : containsS line "Registered Voters - Total" = true) :
    (goRV county st p line).2 = [] := by
  unfold goRV
  rw [if_pos hc]
  split
  · rw [if_pos hf]
  · rfl

theorem rv_dedupF (county : String) (st : St) (line p : String)
    (hp : st.precinct = some p) (hf : (p ++ "_registered") ∈ st.flags)
    (hc : containsS (pyStrip line) "Registered Voters - Total" = true) :
    (step county st line).2 = [] := by
  unfold step
  split
  · rfl
  · unfold goPrec
    split
    · rfl
    · rw [goHave_eqF county st _ p hp]
      unfold goStats
      split
      · rfl
      · exact goRV_dedupF county st _ p hf hc

end FortBend

namespace Ware

theorem goCand_state (county : String) (st : St) (prec office line : String) :
    (goCand county st prec office line).1 = st := by
  unfold goCand
  split
  · split <;> rfl
  · rfl

theorem goSkip_state (county : String) (st : St) (prec line : String) :
    (goSkip county st prec line).1 = st := by
  unfold goSkip
  split
  · rfl
  · split
    · rfl
    · exact goCand_state ..

theorem goOffice_state (county : String) (st : St) (prec line : String) :
    (goOffice county st prec line).1.precinct = st.precinct ∧
    (goOffice county st prec line).1.flags = st.flags := by
  unfold goOffice
  split
  · rw [goSkip_state]
    exact ⟨rfl, rfl⟩
  · rw [goSkip_state]
    exact ⟨rfl, rfl⟩

theorem goUnder_state (county : String) (st : St) (prec line : String) :
    (goUnder county st prec line).1.precinct = st.precinct ∧
    (goUnder county st prec line).1.flags = st.flags := by
  unfold goUnder
  split
  · split <;> exact ⟨rfl, rfl⟩
  · exact goOffice_state ..

theorem goOver_state (county : String) (st : St) (prec line : String) :
    (goOver county st prec line).1.precinct = st.precinct ∧
    (goOver county st prec line).1.flags = st.flags := by
  unfold goOver
  split
  · split <;> exact ⟨rfl, rfl⟩
  · exact goUnder_state ..

theorem goBlank_precinct (county : String) (st : St) (prec line : String) :
    (goBlank county st prec line).1.precinct = st.precinct := by
  unfold goBlank
  split
  · split
    · split <;> rfl
    · rfl
  · exact (goOver_state ..).1

theorem goBC_precinct (county : String) (st : St) (prec line : String) :
    (goBC county st prec line).1.precinct = st.precinct := by
  unfold goBC
  split
  · split
    · split <;> rfl
    · rfl
  · exact goBlank_precinct ..

theorem goRV_precinct (county : String) (st : St) (prec line : String) :
    (goRV county st prec line).1.precinct = st.precinct := by
  unfold goRV
  split
  · split
    · split <;> rfl
    · rfl
  · exact goBC_precinct ..

theorem goStats_precinct (county : String) (st : St) (prec line : String) :
    (goStats county st prec line).1.precinct = st.precinct := by
  unfold goStats
  split
  · rfl
  · exact goRV_precinct ..

theorem goHave_precinct (county : String) (st : St) (line : String) :
    (goHave county st line).1.precinct = st.precinct := by
  unfold goHave
  split
  · rfl
  · exact goStats_precinct ..

theorem goHave_eq (county : String) (st : St) (line p : String)
    (hp : st.precinct = some p) :
    goHave county st line = goStats county st p line := by
  unfold goHave
  rw [hp]

theorem goPrec_keeps_flags (county : String) (st : St) (line : String)
    (h : (goPrec county st line).1.precinct ≠ st.precinct) :
    (goPrec county st line).1.flags = st.flags := by
  unfold goPrec at h ⊢
  by_cases h1 : startsWithS line "Precinct " = true
  · rw [if_pos h1] at h ⊢
    by_cases h2 : String.mk ((line.data.drop 8).dropWhile isWS) ≠ ""
    · rw [if_pos h2]
    · rw [if_neg h2] at h ⊢
      exact absurd (goHave_precinct ..) h
  · rw [if_neg h1] at h ⊢
    exact absurd (goHave_precinct ..) h

/-- An electionware step that replaces the precinct leaves the flag set
untouched (the flags are namespaced by precinct name instead). -/
theorem step_new_precinct_keeps (county : String) (st : St) (line : String)
    (h : (step county st line).1.precinct ≠ st.precinct) :
    (step county st line).1.flags = st.flags := by
  unfold step at h ⊢
  by_cases he : pyStrip line = ""
  · rw [if_pos he] at h
    exact absurd rfl h
  · rw [if_neg he] at h ⊢
    exact goPrec_keeps_flags county st _ h

/-- A registered-voters line whose flag is already set emits nothing. -/
theorem goRV_dedup (county : String) (st : St) (line p : String)
    (hf : (p ++ "_registered") ∈ st.flags)
    (hc : containsS line "Registered Voters - Total" = true) :
    (goRV county st p line).2 = [] := by
  unfold goRV
  rw [if_pos hc]
  split
  · rw [if_pos hf]
  · rfl

theorem rv_dedup (county : String) (st : St) (line p : String)
    (hp : st.precinct = some p) (hf : (p ++ "_registered") ∈ st.flags)
    (hc : containsS (pyStrip line) "Registered Voters - Total" = true) :
    (step county st line).2 = [] := by
  unfold step
  split
  · rfl
  · unfold goPrec
    split
    · split
      · rfl
      · rw [goHave_eq county st _ p hp]
        unfold goStats
        split
        · rfl
        · exact goRV_dedup county st _ p hf hc
    · rw [goHave_eq county st _ p hp]
      unfold goStats
      split
      · rfl
      · exact goRV_dedup county st _ p hf hc

end Ware

namespace FortBend

/-- A ballots-cast line whose flag is already set emits nothing. -/
theorem goBC_dedupF (county : String) (st : St) (line p : String)
    (hf : (p ++ "_ballots") ∈ st.flags)
    (hc : containsS line "Ballots Cast - Total" = true) :
    (goBC county st p line).2 = [] := by
  unfold goBC
  rw [if_pos hc]
  split
  · rw [if_pos hf]
  · rfl

/-- A blank-ballots line whose flag is already set emits nothing. -/
theorem goBlank_dedupF (county : String) (st : St) (line p : String)
    (hf : (p ++ "_blank") ∈ st.flags)
    (hc : containsS line "Ballots Cast - Blank" = true) :
    (goBlank county st p line).2 = [] := by
  unfold goBlank
  rw [if_pos hc]
  split
  · rw [if_pos hf]
  · rfl

theorem bc_dedupF (county : String) (st : St) (line p : String)
    (hp : st.precinct = some p) (hf : (p ++ "_ballots") ∈ st.flags)
    (hc : containsS (pyStrip line) "Ballots Cast - Total" = true)
    (hrv : containsS (pyStrip line) "Registered Voters - Total" = false) :
    (step county st line).2 = [] := by
  unfold step
  split
  · rfl
  · unfold goPrec
    split
    · rfl
    · rw [goHave_eqF county st _ p hp]
      unfold goStats
      split
      · rfl
      · unfold goRV
        rw [if_neg (by simp [hrv])]
        exact goBC_dedupF county st _ p hf hc

theorem blank_dedupF (county : String) (st : St) (line p : String)
    (hp : st.precinct = some p) (hf : (p ++ "_blank") ∈ st.flags)
    (hc : containsS (pyStrip line) "Ballots Cast - Blank" = true)
    (hbc : containsS (pyStrip line) "Ballots Cast - Total" = false)
    (hrv : containsS (pyStrip line) "Registered Voters - Total" = false) :
    (step county st line).2 = [] := by
  unfold step
  split
  · rfl
  · unfold goPrec
    split
    · rfl
    · rw [goHave_eqF county st _ p hp]
      unfold goStats
      split
      · rfl
      · unfold goRV
        rw [if_neg (by simp [hrv])]
        unfold goBC
        rw [if_neg (by simp [hbc])]
        exact goBlank_dedupF county st _ p hf hc

end FortBend

namespace Ware

/-- A ballots-cast line whose flag is already set emits nothing. -/
theorem goBC_dedupW (county : String) (st : St) (line p : String)
    (hf : (p ++ "_ballots") ∈ st.flags)
    (hc : containsS line "Ballots Cast - Total" = true) :
    (goBC county st p line).2 = [] := by
  unfold goBC
  rw [if_pos hc]
  split
  · rw [if_pos hf]
  · rfl

/-- A blank-ballots line whose flag is already set emits nothing. -/
theorem goBlank_dedupW (county : String) (st : St) (line p : String)
    (hf : (p ++ "_blank") ∈ st.flags)
    (hc : containsS line "Ballots Cast - Blank" = true) :
    (goBlank county st p line).2 = [] := by
  unfold goBlank
  rw [if_pos hc]
  split
  · rw [if_pos hf]
  · rfl

theorem bc_dedupW (county : String) (st : St) (line p : String)
    (hp : st.precinct = some p) (hf : (p ++ "_ballots") ∈ st.flags)
    (hc : containsS (pyStrip line) "Ballots Cast - Total" = true)
    (hrv : containsS (pyStrip line) "Registered Voters - Total" = false) :
    (step county st line).2 = [] := by
  unfold step
  split
  · rfl
  · unfold goPrec
    split
    · split
      · rfl
      · rw [goHave_eq county st _ p hp]
        unfold goStats
        split
        · rfl
        · unfold goRV
          rw [if_neg (by simp [hrv])]
          exact goBC_dedupW county st _ p hf hc
    · rw [goHave_eq county st _ p hp]
      unfold goStats
      split
      · rfl
      · unfold goRV
        rw [if_neg (by simp [hrv])]
        exact goBC_dedupW county st _ p hf hc

theorem blank_dedupW (county : String) (st : St) (line p : String)
    (hp : st.precinct = some p) (hf : (p ++ "_blank") ∈ st.flags)
    (hc : containsS (pyStrip line) "Ballots Cast - Blank" = true)
    (hbc : containsS (pyStrip line) "Ballots Cast - Total" = false)
    (hrv : containsS (pyStrip line) "Registered Voters - Total" = false) :
    (step county st line).2 = [] := by
  unfold step
  split
  · rfl
  · unfold goPrec
    split
    · split
      · rfl
      · rw [goHave_eq county st _ p hp]
        unfold goStats
        split
        · rfl
        · unfold goRV
          rw [if_neg (by simp [hrv])]
          unfold goBC
          rw [if_neg (by simp [hbc])]
          exact goBlank_dedupW county st _ p hf hc
    · rw [goHave_eq county st _ p hp]
      unfold goStats
      split
      · rfl
      · unfold goRV
        rw [if_neg (by simp [hrv])]
        unfold goBC
        rw [if_neg (by simp [hbc])]
        exact goBlank_dedupW county st _ p hf hc

end Ware

/-- C8 (counterexample): in electionware a precinct header replaces
`current_precinct` but does not clear the per-precinct flag set — the
flag recorded for Precinct 1 survives the header for Precinct 2. -/
theorem claim_C8_counterexample :
    (Ware.step "Ham" ⟨some "Precinct 1", none, "", ["Precinct 1_registered"]⟩
      "Precinct 2").1.precinct = some "Precinct 2" ∧
    (Ware.step "Ham" ⟨some "Precinct 1", none, "", ["Precinct 1_registered"]⟩
      "Precinct 2").1.flags = ["Precinct 1_registered"] ∧
    (["Precinct 1_registered"] : List String) ≠ [] := by
  refine ⟨by rfl, by rfl, by decide⟩

/-- C8 (amended): each singleton per-precinct statistic — registered
voters, ballots cast and blank ballots — is emitted at most once per
precinct block: a statistics line whose flag is already set emits
nothing in both parsers.  When a precinct header replaces
`current_precinct`, fort_bend clears the flag set, while electionware
leaves it unchanged and instead namespaces the flag keys by precinct
name, so the next precinct can still record its statistics — shown
concretely by the final trace over all three statistics. -/
theorem claim_C8_amended :
    (∀ (county : String) (st : FortBend.St) (line p : String),
      st.precinct = some p → (p ++ "_registered") ∈ st.flags →
      containsS (pyStrip line) "Registered Voters - Total" = true →
      (FortBend.step county st line).2 = []) ∧
    (∀ (county : String) (st : Ware.St) (line p : String),
      st.precinct = some p → (p ++ "_registered") ∈ st.flags →
      containsS (pyStrip line) "Registered Voters - Total" = true →
      (Ware.step county st line).2 = []) ∧
    (∀ (county : String) (st : FortBend.St) (line p : String),
      st.precinct = some p → (p ++ "_ballots") ∈ st.flags →
      containsS (pyStrip line) "Ballots Cast - Total" = true →
      containsS (pyStrip line) "Registered Voters - Total" = false →
      (FortBend.step county st line).2 = []) ∧
    (∀ (county : String) (st : Ware.St) (line p : String),
      st.precinct = some p → (p ++ "_ballots") ∈ st.flags →
      containsS (pyStrip line) "Ballots Cast - Total" = true →
      containsS (pyStrip line) "Registered Voters - Total" = false →
      (Ware.step county st line).2 = []) ∧
    (∀ (county : String) (st : FortBend.St) (line p : String),
      st.precinct = some p → (p ++ "_blank") ∈ st.flags →
      containsS (pyStrip line) "Ballots Cast - Blank" = true →
      containsS (pyStrip line) "Ballots Cast - Total" = false →
      containsS (pyStrip line) "Registered Voters - Total" = false →
      (FortBend.step county st line).2 = []) ∧
    (∀ (county : String) (st : Ware.St) (line p : String),
      st.precinct = some p → (p ++ "_blank") ∈ st.flags →
      containsS (pyStrip line) "Ballots Cast - Blank" = true →
      containsS (pyStrip line) "Ballots Cast - Total" = false →
      containsS (pyStrip line) "Registered Voters - Total" = false →
      (Ware.step county st line).2 = []) ∧
    (∀ (county : String) (st : FortBend.St) (line : String),
      (FortBend.step county st line).1.precinct ≠ st.precinct →
      (FortBend.step county st line).1.flags = []) ∧
    (∀ (county : String) (st : Ware.St) (line : String),
      (Ware.step county st line).1.precinct ≠ st.precinct →
      (Ware.step county st line).1.flags = st.flags) ∧
    (Ware.run "Ham" ["Precinct 1", "Registered Voters - Total 5",
        "Ballots Cast - Total 4 1 1 2", "Ballots Cast - Blank 1 0 0 1",
        "Registered Voters - Total 6", "Ballots Cast - Total 9 3 3 3",
        "Ballots Cast - Blank 2 1 1 0", "Precinct 2",
        "Registered Voters - Total 7"]).map
      (fun r => (r.precinct, r.office, r.votes)) =
      [("Precinct 1", "Registered Voters", 5),
       ("Precinct 1", "Ballots Cast", 4),
       ("Precinct 1", "Ballots Cast - Blank", 1),
       ("Precinct 2", "Registered Voters", 7)] :=
  ⟨fun county st line p => FortBend.rv_dedupF county st line p,
   fun county st line p => Ware.rv_dedup county st line p,
   fun county st line p => FortBend.bc_dedupF county st line p,
   fun county st line p => Ware.bc_dedupW county st line p,
   fun county st line p => FortBend.blank_dedupF county st line p,
   fun county st line p => Ware.blank_dedupW county st line p,
   fun county st line => FortBend.step_new_precinct_clears county st line,
   fun county st line => Ware.step_new_precinct_keeps county st line,
   by rfl⟩

/-- C8 (witness): the dedup conjuncts for all three statistics and the
header conjunct, applied at concrete states and lines. -/
theorem claim_C8_witness :
    (FortBend.step "FB" ⟨some "Precinct 9", none, "", ["Precinct 9_registered"]⟩
      "Registered Voters - Total 77").2 = [] ∧
    (Ware.step "Ham" ⟨some "Precinct 9", none, "", ["Precinct 9_registered"]⟩
      "Registered Voters - Total 77").2 = [] ∧
    (FortBend.step "FB" ⟨some "Precinct 9", none, "", ["Precinct 9_ballots"]⟩
      "Ballots Cast - Total 10 2 3 5").2 = [] ∧
    (Ware.step "Ham" ⟨some "Precinct 9", none, "", ["Precinct 9_ballots"]⟩
      "Ballots Cast - Total 10 2 3 5").2 = [] ∧
    (FortBend.step "FB" ⟨some "Precinct 9", none, "", ["Precinct 9_blank"]⟩
      "Ballots Cast - Blank 1 0 0 1").2 = [] ∧
    (Ware.step "Ham" ⟨some "Precinct 9", none, "", ["Precinct 9_blank"]⟩
      "Ballots Cast - Blank 1 0 0 1").2 = [] ∧
    (FortBend.step "FB" ⟨some "Precinct 9", none, "", ["Precinct 9_registered"]⟩
      "1004").1.flags = [] :=
  ⟨claim_C8_amended.1 "FB" _ _ "Precinct 9" rfl (by decide) (by rfl),
   claim_C8_amended.2.1 "Ham" _ _ "Precinct 9" rfl (by decide) (by rfl),
   claim_C8_amended.2.2.1 "FB" _ _ "Precinct 9" rfl (by decide) (by rfl) (by rfl),
   claim_C8_amended.2.2.2.1 "Ham" _ _ "Precinct 9" rfl (by decide) (by rfl) (by rfl),
   claim_C8_amended.2.2.2.2.1 "FB" _ _ "Precinct 9" rfl (by decide) (by rfl) (by rfl)
     (by rfl),
   claim_C8_amended.2.2.2.2.2.1 "Ham" _ _ "Precinct 9" rfl (by decide) (by rfl)
     (by rfl) (by rfl),
   claim_C8_amended.2.2.2.2.2.2.1 "FB" _ _ (by decide)⟩

/-! ### Claims C1, C2, C5, C10: lemmas on the clarity aggregation store -/

namespace Clarity

theorem payloadSet_keys (pl : Payload) (m : String) (v : Int) :
    (payloadSet pl m v).map Prod.fst =
      if m ∈ pl.map Prod.fst then pl.map Prod.fst else pl.map Prod.fst ++ [m] := by
  induction pl with
  | nil => simp [payloadSet]
  | cons e rest ih =>
    obtain ⟨n, w⟩ := e
    by_cases h : n = m
    · subst h
      simp [payloadSet]
    · simp only [payloadSet, h, if_neg, List.map_cons, List.mem_cons]
      by_cases hm : m ∈ rest.map Prod.fst
      · simp [ih, hm, Ne.symm h]
      · simp [ih, hm, Ne.symm h]

theorem payloadGet_set (pl : Payload) (m : String) (v : Int) :
    payloadGet (payloadSet pl m v) m = some v := by
  induction pl with
  | nil => simp [payloadSet, payloadGet]
  | cons e rest ih =>
    obtain ⟨n, w⟩ := e
    by_cases h : n = m
    · subst h
      simp [payloadSet, payloadGet]
    · simp [payloadSet, payloadGet, h, ih]

theorem payloadGet_eq_none (pl : Payload) (m : String)
    (h : m ∉ pl.map Prod.fst) : payloadGet pl m = none := by
  induction pl with
  | nil => simp [payloadGet]
  | cons e rest ih =>
    obtain ⟨n, w⟩ := e
    simp only [List.map_cons, List.mem_cons] at h
    push_neg at h
    simp [payloadGet, Ne.symm h.1, ih h.2]

theorem payloadSet_keys_nodup (pl : Payload) (m : String) (v : Int)
    (h : (pl.map Prod.fst).Nodup) : ((payloadSet pl m v).map Prod.fst).Nodup := by
  rw [payloadSet_keys]
  split
  · exact h
  · rename_i hm
    simp [List.nodup_append, h, hm]

theorem payloadSet_keys_sub (pl : Payload) (m : String) (v : Int) :
    ∀ n ∈ (payloadSet pl m v).map Prod.fst, n = m ∨ n ∈ pl.map Prod.fst := by
  intro n hn
  rw [payloadSet_keys] at hn
  split at hn
  · exact Or.inr hn
  · rcases List.mem_append.mp hn with h | h
    · exact Or.inr h
    · exact Or.inl (by simpa using h)

theorem storeSet_keys (st : Store) (k : Key) (m : String) (v : Int) :
    (storeSet st k m v).map Prod.fst =
      if k ∈ st.map Prod.fst then st.map Prod.fst else st.map Prod.fst ++ [k] := by
  induction st with
  | nil => simp [storeSet]
  | cons e rest ih =>
    obtain ⟨k', pl⟩ := e
    by_cases h : k' = k
    · subst h
      simp [storeSet]
    · simp only [storeSet, h, if_neg, List.map_cons, List.mem_cons]
      by_cases hm : k ∈ rest.map Prod.fst
      · simp [ih, hm, Ne.symm h]
      · simp [ih, hm, Ne.symm h]

theorem storeSet_keys_nodup (st : Store) (k : Key) (m : String) (v : Int)
    (h : (st.map Prod.fst).Nodup) : ((storeSet st k m v).map Prod.fst).Nodup := by
  rw [storeSet_keys]
  split
  · exact h
  · rename_i hm
    simp [List.nodup_append, h, hm]

theorem storeSet_keys_mem (st : Store) (k : Key) (m : String) (v : Int)
    (h : k ∈ st.map Prod.fst) :
    (storeSet st k m v).map Prod.fst = st.map Prod.fst := by
  rw [storeSet_keys, if_pos h]

theorem storeSet_mem_entries (st : Store) (k : Key) (m : String) (v : Int) :
    ∀ e ∈ storeSet st k m v,
      e ∈ st ∨ (e.1 = k ∧ ∃ pl : Payload,
        ((k, pl) ∈ st ∨ pl = []) ∧ e.2 = payloadSet pl m v) := by
  induction st with
  | nil =>
    intro e he
    simp only [storeSet, List.mem_singleton] at he
    subst he
    exact Or.inr ⟨rfl, [], Or.inr rfl, by simp [payloadSet]⟩
  | cons hd rest ih =>
    obtain ⟨k', pl'⟩ := hd
    intro e he
    by_cases h : k' = k
    · subst h
      simp only [storeSet, if_pos, List.mem_cons] at he
      rcases he with rfl | he
      · exact Or.inr ⟨rfl, pl', Or.inl (List.mem_cons_self _ _), rfl⟩
      · exact Or.inl (List.mem_cons_of_mem _ he)
    · simp only [storeSet, h, if_neg] at he
      cases he with
      | head =>
        exact Or.inl (List.mem_cons_self _ _)
      | tail _ he =>
        have hih := ih e he
        cases hih with
        | inl h1 => exact Or.inl (List.mem_cons_of_mem _ h1)
        | inr h1 =>
          obtain ⟨h1, pl, h2, h3⟩ := h1
          refine Or.inr ⟨h1, pl, ?_, h3⟩
          cases h2 with
          | inl h2 => exact Or.inl (List.mem_cons_of_mem _ h2)
          | inr h2 => exact Or.inr h2

/-- A generic fold-invariant helper. -/
theorem foldl_preserve {β γ : Type} (P : β → Prop) (f : β → γ → β)
    (h : ∀ acc x, P acc → P (f acc x)) :
    ∀ (l : List γ) (acc : β), P acc → P (l.foldl f acc) := by
  intro l
  induction l with
  | nil => intro acc hacc; exact hacc
  | cons x xs ih => intro acc hacc; exact ih _ (h acc x hacc)

end Clarity

namespace Clarity

/-- Keys remain duplicate-free through one stream result. -/
theorem consume_keys_nodup (county_name : String) (region : Option String)
    (acc : Acc) (r : Result) (h : ((acc.1).map Prod.fst).Nodup) :
    (((consume county_name region acc r).1).map Prod.fst).Nodup := by
  unfold consume consumeStore
  repeat' split
  all_goals first
    | exact h
    | exact storeSet_keys_nodup _ _ _ _ h

/-- Keys remain duplicate-free through the turnout injection. -/
theorem addTurnout_keys_nodup (county_name : String) (store : Store)
    (t : Turnout) (h : (store.map Prod.fst).Nodup) :
    ((addTurnout county_name store t).map Prod.fst).Nodup := by
  have hprec : ∀ (st : Store) (pr : String × Int × Int),
      (st.map Prod.fst).Nodup →
      ((turnoutPrecStep county_name st pr).map Prod.fst).Nodup := by
    intro st pr hst
    unfold turnoutPrecStep
    repeat' split
    all_goals first
      | exact hst
      | exact storeSet_keys_nodup _ _ _ _ hst
      | exact storeSet_keys_nodup _ _ _ _ (storeSet_keys_nodup _ _ _ _ hst)
  have hvt : ∀ (st : Store) (vt : String × List (String × Int)),
      (st.map Prod.fst).Nodup →
      ((turnoutVTStep county_name st vt).map Prod.fst).Nodup := by
    intro st vt hst
    unfold turnoutVTStep
    repeat' split
    · refine foldl_preserve (fun s => (List.map Prod.fst s).Nodup) _ ?_ _ _ hst
      intro acc pv hacc
      split
      · exact storeSet_keys_nodup _ _ _ _ hacc
      · exact hacc
    · exact hst
  unfold addTurnout
  have h1 : ((t.precincts.foldl (turnoutPrecStep county_name) store).map Prod.fst).Nodup :=
    foldl_preserve (fun s => (List.map Prod.fst s).Nodup) _ (fun a x ha => hprec a x ha)
      t.precincts store h
  split
  · exact h1
  · exact foldl_preserve (fun s => (List.map Prod.fst s).Nodup) _
      (fun a x ha => hvt a x ha) t.voteTypes _ h1

/-- The final aggregation store has duplicate-free keys. -/
theorem finalAcc_keys_nodup (county_name : String) (region : Option String)
    (results : List Result) (t : Turnout) :
    (((finalAcc county_name region results t).1).map Prod.fst).Nodup := by
  unfold finalAcc
  simp only
  refine addTurnout_keys_nodup county_name _ t ?_
  have h := foldl_preserve (fun acc : Acc => ((acc.1).map Prod.fst).Nodup)
    (consume county_name region)
    (fun acc r ha => consume_keys_nodup county_name region acc r ha)
    results ([], []) (by simp)
  exact h

theorem length_insertLt {α : Type} (lt : α → α → Bool) (x : α) (l : List α) :
    (insertLt lt x l).length = l.length + 1 := by
  induction l with
  | nil => rfl
  | cons y ys ih =>
    by_cases h : lt x y = true
    · simp [insertLt, h]
    · simp [insertLt, h, ih]

theorem length_pySort {α : Type} (lt : α → α → Bool) (l : List α) :
    (pySort lt l).length = l.length := by
  suffices h : ∀ acc, (l.foldl (fun acc x => insertLt lt x acc) acc).length =
      acc.length + l.length by
    simpa [pySort] using h []
  induction l with
  | nil => simp
  | cons y ys ih =>
    intro acc
    simp only [List.foldl_cons, ih, length_insertLt, List.length_cons]
    omega

end Clarity

/-- C1 (counterexample): the electionware parser appends a fresh record
for every matching candidate line, so a document repeating the same key
yields two output records with the identical composite key. -/
theorem claim_C1_counterexample :
    (Ware.run "Ham" ["Precinct 1", "President/Vice President",
      "REP John Smith 5 1 2 2", "REP John Smith 7 1 2 4"]).map Ware.recKey =
    [("Ham", "Precinct 1", "President", "", "REP", "John Smith"),
     ("Ham", "Precinct 1", "President", "", "REP", "John Smith")] := by rfl

/-- C1 (amended): in the clarity precinct path each composite key yields
at most one record — the final store keys are duplicate-free and the row
list has exactly one row per store entry — and a later result carrying an
existing key merges into the existing payload (the key set is unchanged
and the method cell is overwritten); the electionware line parser instead
appends a new record per line, so there duplicates are possible. -/
theorem claim_C1_amended :
    (∀ (county_name : String) (region : Option String) (results : List Clarity.Result)
      (t : Clarity.Turnout),
      (((Clarity.finalAcc county_name region results t).1).map Prod.fst).Nodup ∧
      (Clarity.precinct_results county_name region results t).length =
        ((Clarity.finalAcc county_name region results t).1).length) ∧
    (∀ (st : Clarity.Store) (k : Clarity.Key) (m : String) (v : Int),
      k ∈ st.map Prod.fst →
        (Clarity.storeSet st k m v).map Prod.fst = st.map Prod.fst) ∧
    (∀ (pl : Clarity.Payload) (m : String) (v : Int),
      Clarity.payloadGet (Clarity.payloadSet pl m v) m = some v) := by
  refine ⟨fun county_name region results t =>
    ⟨Clarity.finalAcc_keys_nodup county_name region results t, ?_⟩,
    Clarity.storeSet_keys_mem, Clarity.payloadGet_set⟩
  unfold Clarity.precinct_results
  rw [Clarity.length_pySort, List.length_map]

/-- C1 (witness): the amended conjuncts applied at a concrete input. -/
theorem claim_C1_witness :
    ((((Clarity.finalAcc "X" none
      [⟨"Election Day", some ⟨some "A", some "REP"⟩, "Sheriff", some "P1", 5⟩]
      ⟨[], []⟩).1).map Prod.fst).Nodup ∧
      (Clarity.precinct_results "X" none
        [⟨"Election Day", some ⟨some "A", some "REP"⟩, "Sheriff", some "P1", 5⟩]
        ⟨[], []⟩).length =
        ((Clarity.finalAcc "X" none
          [⟨"Election Day", some ⟨some "A", some "REP"⟩, "Sheriff", some "P1", 5⟩]
          ⟨[], []⟩).1).length) ∧
    (⟨"X", "P1", "Sheriff", none, some "REP", some "A"⟩ : Clarity.Key) ∈
      ([(⟨"X", "P1", "Sheriff", none, some "REP", some "A"⟩, [("Election Day", (5 : Int))])] :
        Clarity.Store).map Prod.fst ∧
    (Clarity.storeSet
      [(⟨"X", "P1", "Sheriff", none, some "REP", some "A"⟩, [("Election Day", (5 : Int))])]
      ⟨"X", "P1", "Sheriff", none, some "REP", some "A"⟩ "Absentee" 2).map Prod.fst =
      ([(⟨"X", "P1", "Sheriff", none, some "REP", some "A"⟩, [("Election Day", (5 : Int))])] :
        Clarity.Store).map Prod.fst :=
  ⟨claim_C1_amended.1 "X" none _ _,
   by decide,
   claim_C1_amended.2.1 _ _ "Absentee" 2 (by decide)⟩

namespace Clarity

/-- Every output row is the emission of one final-store entry. -/
theorem mem_precinct_results (county_name : String) (region : Option String)
    (results : List Result) (t : Turnout) (row : Row)
    (h : row ∈ precinct_results county_name region results t) :
    ∃ e ∈ (finalAcc county_name region results t).1,
      row = emitRow (finalAcc county_name region results t).2 e.1 e.2 := by
  unfold precinct_results at h
  rw [mem_pySort] at h
  rcases List.mem_map.mp h with ⟨e, he, hrow⟩
  exact ⟨e, he, hrow.symm⟩

/-- The emitted office text is the key's office text. -/
theorem emitRow_office (vts : List String) (k : Key) (pl : Payload) :
    (emitRow vts k pl).office = k.office := rfl

/-- The Republican/Democrat party override of the emit loop. -/
theorem emitRow_party_override (vts : List String) (k : Key) (pl : Payload) :
    (containsS k.office "Republican" = true →
      (emitRow vts k pl).party = some "REP") ∧
    (containsS k.office "Democrat" = true →
      containsS k.office "Republican" = false →
      (emitRow vts k pl).party = some "DEM") := by
  constructor
  · intro h
    unfold emitRow
    simp only [h, if_pos]
  · intro hd hr
    unfold emitRow
    simp [hr, hd]

end Clarity

/-- C10 (counterexample): an emitted record whose office text contains
both "Republican" and "Democrat" gets party REP — the Democrat override
is only an `elif` — so the claim fails for the Democrat half. -/
theorem claim_C10_counterexample :
    (Clarity.precinct_results "X" none
      [⟨"Election Day", some ⟨some "John Smith", some "IND"⟩,
        "Republican Democrat Chair", some "P1", 5⟩] ⟨[], []⟩).map
      (fun r => (containsS r.office "Democrat", r.party)) = [(true, some "REP")] ∧
    (some "REP" : Option String) ≠ some "DEM" := by
  refine ⟨by rfl, by decide⟩

/-- C10 (amended): in the clarity precinct path every emitted record
whose office contains "Republican" has party REP, and every record whose
office contains "Democrat" but not "Republican" has party DEM, in both
cases overriding the party stored in the aggregation key. -/
theorem claim_C10_amended :
    ∀ (county_name : String) (region : Option String) (results : List Clarity.Result)
      (t : Clarity.Turnout) (row : Clarity.Row),
      row ∈ Clarity.precinct_results county_name region results t →
      (containsS row.office "Republican" = true → row.party = some "REP") ∧
      (containsS row.office "Democrat" = true →
        containsS row.office "Republican" = false → row.party = some "DEM") := by
  intro county_name region results t row hrow
  rcases Clarity.mem_precinct_results county_name region results t row hrow with
    ⟨e, _, rfl⟩
  rw [Clarity.emitRow_office]
  exact Clarity.emitRow_party_override _ e.1 e.2

/-- C10 (witness): the amended claim applied to the concrete row of a
run with a Republican primary office. -/
theorem claim_C10_witness :
    (⟨"X", "P1", "Republican County Chair", none, some "REP", some "A", 5,
      [("election_day", some 5)]⟩ : Clarity.Row) ∈
      Clarity.precinct_results "X" none
        [⟨"Election Day", some ⟨some "A", some "REP"⟩,
          "Republican County Chair", some "P1", 5⟩] ⟨[], []⟩ ∧
    (⟨"X", "P1", "Republican County Chair", none, some "REP", some "A", 5,
      [("election_day", some 5)]⟩ : Clarity.Row).party = some "REP" :=
  ⟨by decide, (claim_C10_amended "X" none
    [⟨"Election Day", some ⟨some "A", some "REP"⟩,
      "Republican County Chair", some "P1", 5⟩] ⟨[], []⟩
    ⟨"X", "P1", "Republican County Chair", none, some "REP", some "A", 5,
      [("election_day", some 5)]⟩ (by decide)).1 (by rfl)⟩

namespace Clarity

theorem rowLt_asym (a b : Row) (h : rowLt a b = true) : rowLt b a = false := by
  simp only [rowLt, decide_eq_true_eq] at h
  simp only [rowLt, decide_eq_false_iff_not]
  exact lt_asymm h

theorem rowLt_letrans (a b c : Row) (h1 : rowLt b a = false)
    (h2 : rowLt c b = false) : rowLt c a = false := by
  simp only [rowLt, decide_eq_false_iff_not, not_lt] at h1 h2 ⊢
  exact le_trans h1 h2

end Clarity

/-- C5 (counterexample): the collin parser emits records in scan order
and its `main` writes them unsorted: with the Sheriff contest appearing
before the President contest in the input, the output rows are not
sorted by `(office, district, candidate)`. -/
theorem claim_C5_counterexample :
    (Collin.run "Collin" ["PCT 001", "Sheriff", "Overvotes 6 1 1 1 1 2",
      "President/Vice President", "Overvotes 7 1 1 1 2 2"]).map
      (fun r => r.office) = ["Sheriff", "President"] ∧
    ¬ (("Sheriff" : String).data ≤ ("President" : String).data) := by
  refine ⟨by rfl, by decide⟩

/-- C5 (amended): the clarity precinct path sorts its output rows by the
key `(office, district or empty, candidate)` — consecutive rows are
always in weakly increasing key order, for every input — while the
collin parser writes records in scan order, so its output order follows
the input line order. -/
theorem claim_C5_amended :
    ∀ (county_name : String) (region : Option String) (results : List Clarity.Result)
      (t : Clarity.Turnout),
      List.Pairwise (fun a b => Clarity.sortKey a ≤ Clarity.sortKey b)
        (Clarity.precinct_results county_name region results t) := by
  intro county_name region results t
  have h := pairwise_pySort Clarity.rowLt Clarity.rowLt_asym Clarity.rowLt_letrans
    (((Clarity.finalAcc county_name region results t).1).map
      (fun e => Clarity.emitRow (Clarity.finalAcc county_name region results t).2 e.1 e.2))
  unfold Clarity.precinct_results
  refine h.imp ?_
  intro a b hab
  simp only [Clarity.rowLt, decide_eq_false_iff_not, not_lt] at hab
  exact hab

/-! ### Claim C2: totals equal the sum of the vote-method columns -/

namespace Clarity

theorem sum_shift (l : List String) (hl : l.Nodup) (n : String) (hn : n ∈ l)
    (f g : String → Int) (v : Int) (hfg : ∀ x ∈ l, x ≠ n → f x = g x)
    (hg : g n = 0) (hf : f n = v) :
    (l.map f).sum = v + (l.map g).sum := by
  induction l with
  | nil => cases hn
  | cons x xs ih =>
    rcases List.nodup_cons.mp hl with ⟨hx, hxs⟩
    by_cases h : x = n
    · subst h
      have hmaps : xs.map f = xs.map g := by
        refine List.map_congr_left ?_
        intro y hy
        exact hfg y (List.mem_cons_of_mem _ hy) (fun hyx => hx (hyx ▸ hy))
      simp only [List.map_cons, List.sum_cons, hf, hmaps, hg]
      omega
    · have hn' : n ∈ xs := by
        rcases List.mem_cons.mp hn with h1 | h1
        · exact absurd h1.symm h
        · exact h1
      have ihx := ih hxs hn' (fun y hy hyn => hfg y (List.mem_cons_of_mem _ hy) hyn)
      have hfx : f x = g x := hfg x (List.mem_cons_self _ _) h
      simp only [List.map_cons, List.sum_cons, hfx, ihx]
      omega

theorem sum_lookup (pl : Payload) (l : List String) (hl : l.Nodup)
    (hpl : (pl.map Prod.fst).Nodup) (hsub : ∀ n ∈ pl.map Prod.fst, n ∈ l) :
    (l.map (fun vt => (payloadGet pl vt).getD 0)).sum = (pl.map Prod.snd).sum := by
  induction pl with
  | nil =>
    simp only [List.map_nil, List.sum_nil]
    refine List.sum_eq_zero ?_
    intro x hx
    rcases List.mem_map.mp hx with ⟨vt, _, rfl⟩
    simp [payloadGet]
  | cons e rest ih =>
    obtain ⟨n, v⟩ := e
    have hn : n ∈ l := hsub n (by simp)
    have hcons : List.map Prod.fst ((n, v) :: rest) = n :: List.map Prod.fst rest := rfl
    rw [hcons] at hpl
    have hkeys := List.nodup_cons.mp hpl
    have hsum := sum_shift l hl n hn
      (fun vt => (payloadGet ((n, v) :: rest) vt).getD 0)
      (fun vt => (payloadGet rest vt).getD 0) v
      (fun x _ hxn => by simp [payloadGet, Ne.symm hxn])
      (by simp [payloadGet_eq_none rest n hkeys.1])
      (by simp [payloadGet])
    rw [hsum, ih hkeys.2 (fun m hm => hsub m (by simp [hm]))]
    simp

theorem payloadGet_filter (pl : Payload) (vt : String) (hvt : vt ≠ "votes_only") :
    payloadGet (pl.filter (fun e => e.1 ≠ "votes_only")) vt = payloadGet pl vt := by
  induction pl with
  | nil => rfl
  | cons e rest ih =>
    obtain ⟨n, w⟩ := e
    rw [List.filter_cons]
    by_cases h2 : n = "votes_only"
    · rw [if_neg (by simp [h2])]
      rw [ih]
      show payloadGet rest vt = if n = vt then some w else payloadGet rest vt
      rw [if_neg (show ¬ n = vt from fun h => hvt (h ▸ h2))]
    · rw [if_pos (by simp [h2])]
      show (if n = vt then some w
          else payloadGet (rest.filter (fun e => e.1 ≠ "votes_only")) vt) =
        if n = vt then some w else payloadGet rest vt
      by_cases h3 : n = vt
      · rw [if_pos h3, if_pos h3]
      · rw [if_neg h3, if_neg h3, ih]

/-- The central totals identity on one emitted row: outside the
Registered Voters and Ballots Cast offices, the `votes` field equals the
sum of the dynamic vote-method cells. -/
theorem emitRow_votes_eq_sum (vts : List String) (k : Key) (pl : Payload)
    (hvts : vts.Nodup) (hpl : (pl.map Prod.fst).Nodup)
    (hsub : ∀ n ∈ pl.map Prod.fst, n ∈ vts)
    (hRV : k.office ≠ "Registered Voters") :
    (emitRow vts k pl).votes =
      (((emitRow vts k pl).cols).map (fun c => c.2.getD 0)).sum := by
  unfold emitRow
  dsimp only
  rw [if_neg hRV, List.map_map]
  have hcomp :
      ((fun c : String × Option Int => c.2.getD 0) ∘
        (fun vt => (colName vt,
          if k.office = "Registered Voters" then none
          else some ((payloadGet pl vt).getD 0)))) =
      (fun vt => (payloadGet pl vt).getD 0) := by
    funext vt
    simp [Function.comp, hRV]
  rw [hcomp]
  unfold payloadTotal
  have hl : (vts.filter (fun vt => vt ≠ "votes_only")).Nodup := List.Nodup.filter _ hvts
  have hpl2 : ((pl.filter (fun e => e.1 ≠ "votes_only")).map Prod.fst).Nodup := by
    refine List.Nodup.sublist ?_ hpl
    exact List.Sublist.map _ (List.filter_sublist pl)
  have hsub2 : ∀ n ∈ (pl.filter (fun e => e.1 ≠ "votes_only")).map Prod.fst,
      n ∈ vts.filter (fun vt => vt ≠ "votes_only") := by
    intro n hn
    rcases List.mem_map.mp hn with ⟨e, he, rfl⟩
    rcases List.mem_filter.mp he with ⟨he1, he2⟩
    refine List.mem_filter.mpr ⟨hsub e.1 (List.mem_map_of_mem _ he1), he2⟩
  have hmaps :
      ((vts.filter (fun vt => vt ≠ "votes_only")).map
        (fun vt => (payloadGet pl vt).getD 0)) =
      ((vts.filter (fun vt => vt ≠ "votes_only")).map
        (fun vt => (payloadGet (pl.filter (fun e => e.1 ≠ "votes_only")) vt).getD 0)) := by
    refine List.map_congr_left ?_
    intro vt hvt
    rw [payloadGet_filter pl vt (by simpa using (List.mem_filter.mp hvt).2)]
  rw [hmaps, sum_lookup _ _ hl hpl2 hsub2]

/-- Every vote-method cell of a Registered Voters row is empty. -/
theorem emitRow_rv_cols (vts : List String) (k : Key) (pl : Payload)
    (hRV : k.office = "Registered Voters") :
    ∀ c ∈ (emitRow vts k pl).cols, c.2 = none := by
  intro c hc
  unfold emitRow at hc
  simp only at hc
  rcases List.mem_map.mp hc with ⟨vt, _, rfl⟩
  simp [hRV]

end Clarity

namespace Clarity

/-- A store entry is well-formed relative to the accumulated vote-type
set: outside the injected turnout offices, its payload keys are
duplicate-free vote types of the stream. -/
def goodEntry (vts : List String) (e : Key × Payload) : Prop :=
  e.1.office ≠ "Registered Voters" → e.1.office ≠ "Ballots Cast" →
    ((e.2.map Prod.fst).Nodup ∧ ∀ n ∈ e.2.map Prod.fst, n ∈ vts)

/-- The loop invariant of `precinct_results`: the vote-type set is
duplicate-free and every entry is well-formed. -/
def goodAcc (acc : Acc) : Prop :=
  acc.2.Nodup ∧ ∀ e ∈ acc.1, goodEntry acc.2 e

theorem insertVT_subset (l : List String) (y : String) :
    ∀ x ∈ l, x ∈ insertVT l y := by
  intro x hx
  unfold insertVT
  split
  · exact hx
  · exact List.mem_append_left _ hx

theorem insertVT_self (l : List String) (y : String) : y ∈ insertVT l y := by
  unfold insertVT
  split
  · assumption
  · exact List.mem_append_right _ (List.mem_singleton.mpr rfl)

theorem insertVT_nodup (l : List String) (y : String) (h : l.Nodup) :
    (insertVT l y).Nodup := by
  unfold insertVT
  split
  · exact h
  · rename_i hy
    simp [List.nodup_append, h, hy]

theorem goodEntry_mono (v1 v2 : List String) (e : Key × Payload)
    (hsub : ∀ x ∈ v1, x ∈ v2) (h : goodEntry v1 e) : goodEntry v2 e := by
  intro h1 h2
  exact ⟨(h h1 h2).1, fun n hn => hsub n ((h h1 h2).2 n hn)⟩

theorem goodEntry_storeSet (st : Store) (k : Key) (m : String) (v : Int)
    (vts : List String) (h : ∀ e ∈ st, goodEntry vts e) (hm : m ∈ vts) :
    ∀ e ∈ storeSet st k m v, goodEntry vts e := by
  intro e he
  rcases storeSet_mem_entries st k m v e he with he' | ⟨h1, pl, h2, h3⟩
  · exact h e he'
  · intro hRV hBC
    have hpl : (pl.map Prod.fst).Nodup ∧ ∀ n ∈ pl.map Prod.fst, n ∈ vts := by
      rcases h2 with h2 | h2
      · exact h (k, pl) h2 (h1 ▸ hRV) (h1 ▸ hBC)
      · subst h2; simp
    rw [h3]
    refine ⟨payloadSet_keys_nodup pl m v hpl.1, ?_⟩
    intro n hn
    rcases payloadSet_keys_sub pl m v n hn with rfl | hn'
    · exact hm
    · exact hpl.2 n hn'

theorem goodEntry_storeSet_rvbc (st : Store) (k : Key) (m : String) (v : Int)
    (vts : List String) (h : ∀ e ∈ st, goodEntry vts e)
    (hk : k.office = "Registered Voters" ∨ k.office = "Ballots Cast") :
    ∀ e ∈ storeSet st k m v, goodEntry vts e := by
  intro e he
  rcases storeSet_mem_entries st k m v e he with he' | ⟨h1, _, _, _⟩
  · exact h e he'
  · intro hRV hBC
    rcases hk with hk | hk
    · exact absurd (h1 ▸ hk) hRV
    · exact absurd (h1 ▸ hk) hBC

/-- One stream result keeps the accumulator well-formed. -/
theorem consume_good (county_name : String) (region : Option String)
    (acc : Acc) (r : Result) (h : goodAcc acc) :
    goodAcc (consume county_name region acc r) := by
  obtain ⟨hnd, hent⟩ := h
  unfold consume
  split
  · exact ⟨hnd, hent⟩
  · split
    · exact ⟨hnd, hent⟩
    · rename_i ch _
      split
      · refine ⟨insertVT_nodup _ _ hnd, ?_⟩
        intro e he
        exact goodEntry_mono _ _ e (insertVT_subset acc.2 r.vote_type) (hent e he)
      · refine ⟨insertVT_nodup _ _ hnd, ?_⟩
        unfold consumeStore
        split
        · intro e he
          exact goodEntry_mono _ _ e (insertVT_subset acc.2 r.vote_type) (hent e he)
        · refine goodEntry_storeSet _ _ _ _ _ ?_ (insertVT_self acc.2 r.vote_type)
          intro e he
          exact goodEntry_mono _ _ e (insertVT_subset acc.2 r.vote_type) (hent e he)

/-- The turnout injection only touches Registered Voters and Ballots Cast
keys, so every entry stays well-formed. -/
theorem addTurnout_good (county_name : String) (store : Store) (t : Turnout)
    (vts : List String) (h : ∀ e ∈ store, goodEntry vts e) :
    ∀ e ∈ addTurnout county_name store t, goodEntry vts e := by
  have hprec : ∀ (st : Store) (pr : String × Int × Int),
      (∀ e ∈ st, goodEntry vts e) →
      ∀ e ∈ turnoutPrecStep county_name st pr, goodEntry vts e := by
    intro st pr hst
    unfold turnoutPrecStep
    repeat' split
    all_goals first
      | exact hst
      | exact goodEntry_storeSet_rvbc _ _ _ _ _ hst (Or.inl rfl)
      | exact goodEntry_storeSet_rvbc _ _ _ _ _ hst (Or.inr rfl)
      | exact goodEntry_storeSet_rvbc _ _ _ _ _
          (goodEntry_storeSet_rvbc _ _ _ _ _ hst (Or.inl rfl)) (Or.inr rfl)
  have hvt : ∀ (st : Store) (vt : String × List (String × Int)),
      (∀ e ∈ st, goodEntry vts e) →
      ∀ e ∈ turnoutVTStep county_name st vt, goodEntry vts e := by
    intro st vt hst
    unfold turnoutVTStep
    repeat' split
    · refine foldl_preserve (fun s => ∀ e ∈ s, goodEntry vts e) _ ?_ _ _ hst
      intro acc pv hacc
      split
      · exact goodEntry_storeSet_rvbc _ _ _ _ _ hacc (Or.inr rfl)
      · exact hacc
    · exact hst
  unfold addTurnout
  have h1 := foldl_preserve (fun s : Store => ∀ e ∈ s, goodEntry vts e) _
    (fun a x ha => hprec a x ha) t.precincts store h
  split
  · exact h1
  · exact foldl_preserve (fun s : Store => ∀ e ∈ s, goodEntry vts e) _
      (fun a x ha => hvt a x ha) t.voteTypes _ h1

/-- The final accumulator is well-formed for every input. -/
theorem finalAcc_good (county_name : String) (region : Option String)
    (results : List Result) (t : Turnout) :
    ((finalAcc county_name region results t).2).Nodup ∧
    ∀ e ∈ (finalAcc county_name region results t).1,
      goodEntry (finalAcc county_name region results t).2 e := by
  have h := foldl_preserve goodAcc (consume county_name region)
    (fun acc r ha => consume_good county_name region acc r ha)
    results ([], []) ⟨List.nodup_nil, by simp⟩
  unfold finalAcc
  simp only
  exact ⟨h.1, addTurnout_good county_name _ t _ h.2⟩

end Clarity

/-- C2 counterexample: the electionware parser copies the vendor's printed
total into `votes`; on the line `REP John Smith 10 1 1 1` the emitted
record has `votes = 10` while its three vote-method cells sum to `3`. -/
theorem claim_C2_counterexample :
    (Ware.step "Ham" ⟨some "Precinct 1", some "Sheriff", "", []⟩
        "REP John Smith 10 1 1 1").2.map
      (fun r => (r.votes,
        r.absentee.getD 0 + r.early_voting.getD 0 + r.election_day.getD 0)) =
      [((10 : Int), (3 : Int))] ∧ (10 : Int) ≠ 3 :=
  ⟨by rfl, by decide⟩

/-- C2 (amended): in the clarity precinct path, every output row whose
office is neither "Registered Voters" nor "Ballots Cast" has `votes` equal
to the sum of its dynamic vote-method cells; every Registered Voters row
has all vote-method cells empty, and its `votes` is the stored
`votes_only` figure.  (Ballots Cast rows are excluded because the turnout
injection stores method values that need not appear as columns, and the
electionware parser is excluded because it copies the vendor total.) -/
theorem claim_C2_amended :
    (∀ (county_name : String) (region : Option String) (results : List Clarity.Result)
        (t : Clarity.Turnout) (row : Clarity.Row),
      row ∈ Clarity.precinct_results county_name region results t →
      row.office ≠ "Registered Voters" → row.office ≠ "Ballots Cast" →
      row.votes = ((row.cols.map (fun c => c.2.getD 0)).sum)) ∧
    (∀ (county_name : String) (region : Option String) (results : List Clarity.Result)
        (t : Clarity.Turnout) (row : Clarity.Row),
      row ∈ Clarity.precinct_results county_name region results t →
      row.office = "Registered Voters" →
      ∀ c ∈ row.cols, c.2 = none) ∧
    (∀ (vts : List String) (k : Clarity.Key) (pl : Clarity.Payload),
      k.office = "Registered Voters" →
      (Clarity.emitRow vts k pl).votes =
        (Clarity.payloadGet pl "votes_only").getD 0) := by
  refine ⟨?_, ?_, ?_⟩
  · intro county_name region results t row hrow hRV hBC
    obtain ⟨e, he, heq⟩ :=
      Clarity.mem_precinct_results county_name region results t row hrow
    obtain ⟨hnd, hgood⟩ := Clarity.finalAcc_good county_name region results t
    have hoff : row.office = e.1.office := by
      rw [heq]; exact Clarity.emitRow_office _ _ _
    have hg := hgood e he (hoff ▸ hRV) (hoff ▸ hBC)
    rw [heq]
    exact Clarity.emitRow_votes_eq_sum _ e.1 e.2 hnd hg.1 hg.2 (hoff ▸ hRV)
  · intro county_name region results t row hrow hRV
    obtain ⟨e, he, heq⟩ :=
      Clarity.mem_precinct_results county_name region results t row hrow
    have hoff : e.1.office = "Registered Voters" := by
      rw [heq] at hRV
      rw [← Clarity.emitRow_office (Clarity.finalAcc county_name region results t).2 e.1 e.2]
      exact hRV
    rw [heq]
    exact Clarity.emitRow_rv_cols _ e.1 e.2 hoff
  · intro vts k pl hk
    unfold Clarity.emitRow
    dsimp only
    rw [if_pos hk]

/-- C2 witness at a concrete two-result stream with turnout. -/
theorem claim_C2_witness :
    (⟨"Ham", "P1", "Sheriff", none, some "REP", some "Alice", 7,
      [("election_day", some 5), ("absentee", some 2)]⟩ : Clarity.Row).votes =
      (((⟨"Ham", "P1", "Sheriff", none, some "REP", some "Alice", 7,
        [("election_day", some 5), ("absentee", some 2)]⟩ : Clarity.Row).cols).map
          (fun c => c.2.getD 0)).sum ∧
    (("election_day", (none : Option Int)) : String × Option Int).2 = none ∧
    (Clarity.emitRow ["Election Day"]
      ⟨"Ham", "P1", "Registered Voters", none, none, none⟩
      [("votes_only", 100)]).votes =
      (Clarity.payloadGet [("votes_only", 100)] "votes_only").getD 0 :=
  ⟨claim_C2_amended.1 "Ham" none
      [⟨"Election Day", some ⟨some "Alice", some "REP"⟩, "Sheriff", some "P1", 5⟩,
       ⟨"Absentee", some ⟨some "Alice", some "REP"⟩, "Sheriff", some "P1", 2⟩]
      ⟨[("P1", 100, 7)], []⟩
      ⟨"Ham", "P1", "Sheriff", none, some "REP", some "Alice", 7,
        [("election_day", some 5), ("absentee", some 2)]⟩
      (by decide) (by decide) (by decide),
   claim_C2_amended.2.1 "Ham" none
      [⟨"Election Day", some ⟨some "Alice", some "REP"⟩, "Sheriff", some "P1", 5⟩,
       ⟨"Absentee", some ⟨some "Alice", some "REP"⟩, "Sheriff", some "P1", 2⟩]
      ⟨[("P1", 100, 7)], []⟩
      ⟨"Ham", "P1", "Registered Voters", none, none, none, 100,
        [("election_day", none), ("absentee", none)]⟩
      (by decide) (by decide) ("election_day", none) (by decide),
   claim_C2_amended.2.2 ["Election Day"]
      ⟨"Ham", "P1", "Registered Voters", none, none, none⟩
      [("votes_only", 100)] rfl⟩

/-! ### Structure theory of `runsOf`, used for the numeric-field minimums -/

namespace StrUtil

theorem runsOf_neg (q : Char → Bool) (c : Char) (cs : List Char) (hc : q c = false) :
    runsOf q (c :: cs) = runsOf q cs := by
  cases cs with
  | nil => simp [runsOf, hc]
  | cons d ds => simp [runsOf, hc]

theorem runsOf_pos (q : Char → Bool) : ∀ (cs : List Char) (c : Char), q c = true →
    runsOf q (c :: cs) = (c :: cs.takeWhile q) :: runsOf q (cs.dropWhile q) := by
  intro cs
  induction cs with
  | nil => intro c hc; simp [runsOf, hc, List.takeWhile, List.dropWhile]
  | cons d ds ih =>
    intro c hc
    by_cases hd : q d = true
    · rw [List.takeWhile_cons_of_pos hd, List.dropWhile_cons_of_pos hd]
      simp [runsOf, hc, hd, ih d hd]
    · rw [List.takeWhile_cons_of_neg (by simpa using hd),
        List.dropWhile_cons_of_neg (by simpa using hd)]
      simp [runsOf, hc, hd]

theorem takeWhile_append_all (q : Char → Bool) (xs ys : List Char)
    (h : ∀ x ∈ xs, q x = true) :
    (xs ++ ys).takeWhile q = xs ++ ys.takeWhile q := by
  induction xs with
  | nil => rfl
  | cons x l ih =>
    simp only [List.cons_append, List.takeWhile_cons, h x (by simp)]
    rw [ih (fun y hy => h y (by simp [hy]))]
    simp

theorem dropWhile_append_all (q : Char → Bool) (xs ys : List Char)
    (h : ∀ x ∈ xs, q x = true) :
    (xs ++ ys).dropWhile q = ys.dropWhile q := by
  induction xs with
  | nil => rfl
  | cons x l ih =>
    simp only [List.cons_append, List.dropWhile_cons, h x (by simp), if_pos]
    exact ih (fun y hy => h y (by simp [hy]))

theorem takeWhile_append_stop (q : Char → Bool) (xs ys : List Char)
    (h : ¬ ∀ x ∈ xs, q x = true) :
    (xs ++ ys).takeWhile q = xs.takeWhile q := by
  induction xs with
  | nil => exact absurd (by simp) h
  | cons x l ih =>
    by_cases hx : q x = true
    · simp only [List.cons_append, List.takeWhile_cons, hx, if_pos]
      rw [ih (fun hall => h (by
        intro y hy
        rcases List.mem_cons.mp hy with rfl | hy
        · exact hx
        · exact hall y hy))]
    · simp [List.takeWhile_cons_of_neg (by simpa using hx)]

theorem dropWhile_append_stop (q : Char → Bool) (xs ys : List Char)
    (h : ¬ ∀ x ∈ xs, q x = true) :
    (xs ++ ys).dropWhile q = xs.dropWhile q ++ ys := by
  induction xs with
  | nil => exact absurd (by simp) h
  | cons x l ih =>
    by_cases hx : q x = true
    · simp only [List.cons_append, List.dropWhile_cons, hx, if_pos]
      exact ih (fun hall => h (by
        intro y hy
        rcases List.mem_cons.mp hy with rfl | hy
        · exact hx
        · exact hall y hy))
    · simp [List.dropWhile_cons_of_neg (by simpa using hx)]

theorem runsOf_all (q : Char → Bool) (l : List Char) (h : ∀ x ∈ l, q x = true)
    (hne : l ≠ []) : runsOf q l = [l] := by
  cases l with
  | nil => exact absurd rfl hne
  | cons c cs =>
    rw [runsOf_pos q cs c (h c (by simp))]
    have ht : cs.takeWhile q = cs := by
      have := takeWhile_append_all q cs [] (fun y hy => h y (by simp [hy]))
      simpa using this
    have hd : cs.dropWhile q = [] := by
      have := dropWhile_append_all q cs [] (fun y hy => h y (by simp [hy]))
      simpa using this
    rw [ht, hd]
    rfl

theorem runsOf_head_pos (q : Char → Bool) (c : Char) (cs : List Char)
    (hc : q c = true) : 1 ≤ (runsOf q (c :: cs)).length := by
  rw [runsOf_pos q cs c hc]
  simp

theorem runsOf_length_tail (q : Char → Bool) (c : Char) (cs : List Char) :
    (runsOf q cs).length ≤ (runsOf q (c :: cs)).length := by
  by_cases hc : q c = true
  · rw [runsOf_pos q cs c hc]
    cases cs with
    | nil => simp
    | cons d ds =>
      by_cases hd : q d = true
      · rw [runsOf_pos q ds d hd, List.dropWhile_cons_of_pos hd]
        simp
      · rw [runsOf_neg q d ds (by simpa using hd),
          List.dropWhile_cons_of_neg (by simpa using hd),
          runsOf_neg q d ds (by simpa using hd)]
        simp
  · rw [runsOf_neg q c cs (by simpa using hc)]

theorem runsOf_length_suffix (q : Char → Bool) (l₂ l₁ : List Char)
    (h : l₂ <:+ l₁) : (runsOf q l₂).length ≤ (runsOf q l₁).length := by
  obtain ⟨pre, rfl⟩ := h
  induction pre with
  | nil => simp
  | cons x xs ih => simpa using le_trans ih (runsOf_length_tail q x (xs ++ l₂))

end StrUtil

namespace StrUtil

theorem runsOf_append_sep_aux (q : Char → Bool) (c : Char) (hc : q c = false) :
    ∀ (n : Nat) (a b : List Char), a.length ≤ n →
      runsOf q (a ++ c :: b) = runsOf q a ++ runsOf q b := by
  intro n
  induction n with
  | zero =>
    intro a b ha
    have hnil : a = [] := List.eq_nil_of_length_eq_zero (Nat.le_zero.mp ha)
    subst hnil
    simp [runsOf_neg q c b hc, runsOf]
  | succ n ih =>
    intro a b ha
    cases a with
    | nil => simp [runsOf_neg q c b hc, runsOf]
    | cons x xs =>
      by_cases hx : q x = true
      · rw [List.cons_append, runsOf_pos q (xs ++ c :: b) x hx, runsOf_pos q xs x hx]
        by_cases hall : ∀ y ∈ xs, q y = true
        · rw [takeWhile_append_all q xs (c :: b) hall,
            dropWhile_append_all q xs (c :: b) hall,
            List.takeWhile_cons_of_neg (by simp [hc]),
            List.dropWhile_cons_of_neg (by simp [hc]),
            runsOf_neg q c b hc]
          have ht : xs.takeWhile q = xs := by
            simpa using takeWhile_append_all q xs [] hall
          have hd : xs.dropWhile q = [] := by
            simpa using dropWhile_append_all q xs [] hall
          rw [ht, hd]
          simp [runsOf]
        · rw [takeWhile_append_stop q xs (c :: b) hall,
            dropWhile_append_stop q xs (c :: b) hall]
          have hlen : (xs.dropWhile q).length ≤ n := by
            have h1 : (xs.dropWhile q).length ≤ xs.length :=
              (List.dropWhile_sublist _).length_le
            have h2 : xs.length + 1 ≤ n + 1 := by simpa using ha
            omega
          rw [ih (xs.dropWhile q) b hlen]
          simp
      · rw [List.cons_append, runsOf_neg q x (xs ++ c :: b) (by simpa using hx),
          runsOf_neg q x xs (by simpa using hx)]
        have hlen : xs.length ≤ n := by
          have : xs.length + 1 ≤ n + 1 := by simpa using ha
          omega
        exact ih xs b hlen

theorem runsOf_append_sep (q : Char → Bool) (c : Char) (hc : q c = false)
    (a b : List Char) : runsOf q (a ++ c :: b) = runsOf q a ++ runsOf q b :=
  runsOf_append_sep_aux q c hc a.length a b le_rfl

theorem dropWhile_first_neg (q : Char → Bool) :
    ∀ (l : List Char) (d : Char) (ds : List Char),
      l.dropWhile q = d :: ds → q d = false := by
  intro l
  induction l with
  | nil => intro d ds h; cases h
  | cons x xs ih =>
    intro d ds h
    by_cases hx : q x = true
    · rw [List.dropWhile_cons_of_pos hx] at h
      exact ih d ds h
    · rw [List.dropWhile_cons_of_neg (by simpa using hx)] at h
      cases h
      simpa using hx

theorem runsOf_flat_aux (q p : Char → Bool) (hqp : ∀ c, q c = true → p c = true) :
    ∀ (n : Nat) (l : List Char), l.length ≤ n →
      runsOf q l = (runsOf p l).flatMap (runsOf q) := by
  intro n
  induction n with
  | zero =>
    intro l hl
    have hnil : l = [] := List.eq_nil_of_length_eq_zero (Nat.le_zero.mp hl)
    subst hnil
    rfl
  | succ n ih =>
    intro l hl
    cases l with
    | nil => rfl
    | cons c cs =>
      by_cases hp : p c = true
      · rw [runsOf_pos p cs c hp, List.flatMap_cons]
        have hlen : (cs.dropWhile p).length ≤ n := by
          have h1 : (cs.dropWhile p).length ≤ cs.length :=
            (List.dropWhile_sublist _).length_le
          have h2 : cs.length + 1 ≤ n + 1 := by simpa using hl
          omega
        rw [← ih (cs.dropWhile p) hlen]
        have hsplit : c :: cs = (c :: cs.takeWhile p) ++ cs.dropWhile p := by
          simp [List.takeWhile_append_dropWhile]
        rw [hsplit]
        cases hdw : cs.dropWhile p with
        | nil => simp [runsOf]
        | cons d ds =>
          have hpd : p d = false := dropWhile_first_neg p cs d ds hdw
          have hqd : q d = false := by
            cases hq : q d
            · rfl
            · exact absurd (hqp d hq) (by simp [hpd])
          rw [runsOf_append_sep q d hqd (c :: cs.takeWhile p) ds,
            runsOf_neg q d ds hqd]
      · have hq : q c = false := by
          cases hqc : q c
          · rfl
          · exact absurd (hqp c hqc) (by simp [hp])
        rw [runsOf_neg p c cs (by simpa using hp), runsOf_neg q c cs hq]
        have hlen : cs.length ≤ n := by
          have : cs.length + 1 ≤ n + 1 := by simpa using hl
          omega
        exact ih cs hlen

theorem runsOf_flatMap (q p : Char → Bool) (hqp : ∀ c, q c = true → p c = true)
    (l : List Char) : runsOf q l = (runsOf p l).flatMap (runsOf q) :=
  runsOf_flat_aux q p hqp l.length l le_rfl

theorem isDC_notWS (c : Char) (h : isDC c = true) : notWS c = true := by
  unfold notWS
  cases hw : isWS c
  · rfl
  · exfalso
    unfold isWS at hw
    simp only [Bool.or_eq_true, decide_eq_true_eq] at hw
    rcases hw with ((h1 | h1) | h1) | h1 <;> subst h1 <;> exact absurd h (by decide)

theorem runsOf_allDC (t : List Char) (h : allDC t = true) : runsOf isDC t = [t] := by
  simp only [allDC, Bool.and_eq_true] at h
  obtain ⟨h1, h2⟩ := h
  refine runsOf_all isDC t ?_ ?_
  · intro x hx
    exact List.all_eq_true.mp h2 x hx
  · intro hnil
    subst hnil
    simp at h1

theorem runsOf_dcLead (t : List Char) (h : dcLead t = true) :
    1 ≤ (runsOf isDC t).length := by
  unfold dcLead at h
  cases t with
  | nil => simp [List.takeWhile] at h
  | cons c cs =>
    have hc : isDC c = true := by
      cases hc' : isDC c
      · rw [List.takeWhile_cons_of_neg (by simp [hc'])] at h
        simp at h
      · rfl
    exact runsOf_head_pos isDC c cs hc

end StrUtil

namespace Collin

theorem strictFind_drop :
    ∀ (ts cand c : List (List Char)) (v : Int × Int × Int × Int × Int × Int),
      strictFind cand ts = some (c, v) →
      ∃ i, strictTail (ts.drop i) = some v := by
  intro ts
  induction ts with
  | nil =>
    intro cand c v h
    exact absurd h (by simp [strictFind])
  | cons t ts' ih =>
    intro cand c v h
    unfold strictFind at h
    split at h
    · rename_i cand0 x0 c1 cs v1 heq
      simp only [Option.some.injEq, Prod.mk.injEq] at h
      obtain ⟨h1, h2⟩ := h
      subst h2
      exact ⟨0, by simpa using heq⟩
    · obtain ⟨i, hi⟩ := ih _ _ _ h
      exact ⟨i + 1, by simpa using hi⟩

theorem strictTail_shape (L : List (List Char))
    (v : Int × Int × Int × Int × Int × Int) (h : strictTail L = some v) :
    ∃ t p n1 n2 n3 n4 n5 junk,
      L = t :: p :: n1 :: n2 :: n3 :: n4 :: n5 :: junk ∧
      StrUtil.allDC t = true ∧ StrUtil.allDC n1 = true ∧ StrUtil.allDC n2 = true ∧
      StrUtil.allDC n3 = true ∧ StrUtil.allDC n4 = true ∧
      StrUtil.dcLead n5 = true := by
  unfold strictTail at h
  split at h
  · rename_i t p n1 n2 n3 n4 n5 junk
    split at h
    · rename_i hcond
      simp only [Bool.and_eq_true] at hcond
      exact ⟨t, p, n1, n2, n3, n4, n5, junk, rfl, hcond.1.1.1.1.1.1, hcond.1.1.1.1.2,
        hcond.1.1.1.2, hcond.1.1.2, hcond.1.2, hcond.2⟩
    · exact Option.noConfusion h
  · exact Option.noConfusion h

end Collin

namespace Collin

theorem strictCand_runs (line : String)
    (cv : String × String × (Int × Int × Int × Int × Int × Int))
    (h : strictCand line = some cv) :
    6 ≤ (StrUtil.runsOf StrUtil.isDC line.data).length := by
  unfold strictCand at h
  split at h
  · rename_i p0 rest htk
    split at h
    · split at h
      · rename_i cand v hsf
        obtain ⟨i, hi⟩ := strictFind_drop rest [] cand v hsf
        obtain ⟨t, p', n1, n2, n3, n4, n5, junk, hshape, h1, h2, h3, h4, h5, h6⟩ :=
          strictTail_shape _ _ hi
        have hflat : StrUtil.runsOf StrUtil.isDC line.data =
            (StrUtil.toksL line.data).flatMap (StrUtil.runsOf StrUtil.isDC) :=
          StrUtil.runsOf_flatMap _ _ StrUtil.isDC_notWS line.data
        have hrest : rest = rest.take i ++ (t :: p' :: n1 :: n2 :: n3 :: n4 :: n5 :: junk) := by
          rw [← hshape]
          exact (List.take_append_drop i rest).symm
        rw [hflat, htk, hrest]
        simp only [List.flatMap_cons, List.flatMap_append, List.length_append]
        have l1 : (StrUtil.runsOf StrUtil.isDC t).length = 1 := by
          rw [StrUtil.runsOf_allDC t h1]; rfl
        have l2 : (StrUtil.runsOf StrUtil.isDC n1).length = 1 := by
          rw [StrUtil.runsOf_allDC n1 h2]; rfl
        have l3 : (StrUtil.runsOf StrUtil.isDC n2).length = 1 := by
          rw [StrUtil.runsOf_allDC n2 h3]; rfl
        have l4 : (StrUtil.runsOf StrUtil.isDC n3).length = 1 := by
          rw [StrUtil.runsOf_allDC n3 h4]; rfl
        have l5 : (StrUtil.runsOf StrUtil.isDC n4).length = 1 := by
          rw [StrUtil.runsOf_allDC n4 h5]; rfl
        have l6 : 1 ≤ (StrUtil.runsOf StrUtil.isDC n5).length :=
          StrUtil.runsOf_dcLead n5 h6
        omega
      · exact Option.noConfusion h
    · exact Option.noConfusion h
  · exact Option.noConfusion h

theorem uncontestedCand_runs (line : String)
    (cv : String × String × (Int × Int × Int × Int × Int × Int))
    (h : uncontestedCand line = some cv) :
    6 ≤ (StrUtil.runsOf StrUtil.isDC line.data).length := by
  unfold uncontestedCand at h
  split at h
  · rename_i p0 rest htk
    split at h
    · dsimp only at h
      split at h
      · split at h
        · rename_i t pc n1 n2 n3 n4 n5 hdrop
          split at h
          · rename_i hcond
            simp only [Bool.and_eq_true] at hcond
            obtain ⟨⟨⟨⟨⟨⟨ht, hpc⟩, hn1⟩, hn2⟩, hn3⟩, hn4⟩, hn5⟩ := hcond
            have hflat : StrUtil.runsOf StrUtil.isDC line.data =
                (StrUtil.toksL line.data).flatMap (StrUtil.runsOf StrUtil.isDC) :=
              StrUtil.runsOf_flatMap _ _ StrUtil.isDC_notWS line.data
            have hrest : rest = rest.take (rest.length - 7) ++
                [t, pc, n1, n2, n3, n4, n5] := by
              rw [← hdrop]
              exact (List.take_append_drop _ rest).symm
            rw [hflat, htk, hrest]
            simp only [List.flatMap_cons, List.flatMap_append, List.length_append]
            have l1 : (StrUtil.runsOf StrUtil.isDC t).length = 1 := by
              rw [StrUtil.runsOf_allDC t ht]; rfl
            have l2 : (StrUtil.runsOf StrUtil.isDC n1).length = 1 := by
              rw [StrUtil.runsOf_allDC n1 hn1]; rfl
            have l3 : (StrUtil.runsOf StrUtil.isDC n2).length = 1 := by
              rw [StrUtil.runsOf_allDC n2 hn2]; rfl
            have l4 : (StrUtil.runsOf StrUtil.isDC n3).length = 1 := by
              rw [StrUtil.runsOf_allDC n3 hn3]; rfl
            have l5 : (StrUtil.runsOf StrUtil.isDC n4).length = 1 := by
              rw [StrUtil.runsOf_allDC n4 hn4]; rfl
            have l6 : (StrUtil.runsOf StrUtil.isDC n5).length = 1 := by
              rw [StrUtil.runsOf_allDC n5 hn5]; rfl
            omega
          · exact Option.noConfusion h
        · exact Option.noConfusion h
      · exact Option.noConfusion h
    · exact Option.noConfusion h
  · exact Option.noConfusion h

theorem propCand_runs (line : String)
    (cv : String × (Int × Int × Int × Int × Int × Int))
    (h : propCand line = some cv) :
    6 ≤ (StrUtil.runsOf StrUtil.isDC line.data).length := by
  unfold propCand at h
  split at h
  · rename_i p0 t pc n1 n2 n3 n4 n5 htk
    split at h
    · rename_i hcond
      simp only [Bool.and_eq_true] at hcond
      obtain ⟨⟨⟨⟨⟨⟨⟨hp, ht⟩, hpc⟩, hn1⟩, hn2⟩, hn3⟩, hn4⟩, hn5⟩ := hcond
      have hflat : StrUtil.runsOf StrUtil.isDC line.data =
          (StrUtil.toksL line.data).flatMap (StrUtil.runsOf StrUtil.isDC) :=
        StrUtil.runsOf_flatMap _ _ StrUtil.isDC_notWS line.data
      rw [hflat, htk]
      simp only [List.flatMap_cons, List.length_append]
      have l1 : (StrUtil.runsOf StrUtil.isDC t).length = 1 := by
        rw [StrUtil.runsOf_allDC t ht]; rfl
      have l2 : (StrUtil.runsOf StrUtil.isDC n1).length = 1 := by
        rw [StrUtil.runsOf_allDC n1 hn1]; rfl
      have l3 : (StrUtil.runsOf StrUtil.isDC n2).length = 1 := by
        rw [StrUtil.runsOf_allDC n2 hn2]; rfl
      have l4 : (StrUtil.runsOf StrUtil.isDC n3).length = 1 := by
        rw [StrUtil.runsOf_allDC n3 hn3]; rfl
      have l5 : (StrUtil.runsOf StrUtil.isDC n4).length = 1 := by
        rw [StrUtil.runsOf_allDC n4 hn4]; rfl
      have l6 : (StrUtil.runsOf StrUtil.isDC n5).length = 1 := by
        rw [StrUtil.runsOf_allDC n5 hn5]; rfl
      omega
    · exact Option.noConfusion h
  · exact Option.noConfusion h

end Collin

namespace Collin

theorem simpleMatch_suffix (l : List Char) (pr : String × List Char)
    (h : simpleMatch l = some pr) : pr.2 <:+ l := by
  unfold simpleMatch at h
  split at h
  · rename_i a b c rest
    dsimp only at h
    split at h
    · split at h
      · rename_i d ds
        split at h
        · split at h
          · exact Option.noConfusion h
          · simp only [Option.some.injEq] at h
            subst h
            exact List.IsSuffix.trans (List.dropWhile_suffix _) ⟨[a, b, c], rfl⟩
        · exact Option.noConfusion h
      · exact Option.noConfusion h
    · exact Option.noConfusion h
  · exact Option.noConfusion h

end Collin

namespace Collin

/-- With fewer than six digit-or-comma runs on the line, the debug-block
fallback extractors emit nothing. -/
theorem fallbackOut_none (county : String) (st : St) (prec office line : String)
    (hr : (StrUtil.runsOf StrUtil.isDC line.data).length < 6) :
    fallbackOut county st prec office line = none := by
  unfold fallbackOut
  split
  · cases hsm : simpleMatch line.data with
    | none =>
      dsimp only
      rw [if_neg (by omega)]
    | some pr =>
      obtain ⟨party, rest⟩ := pr
      have hsfx : rest <:+ line.data := by
        have := simpleMatch_suffix line.data (party, rest) hsm
        simpa using this
      have hrest : (StrUtil.runsOf StrUtil.isDC rest).length < 6 :=
        lt_of_le_of_lt (StrUtil.runsOf_length_suffix _ _ _ hsfx) hr
      have hsf : simpleFallback rest = none := by
        unfold simpleFallback
        dsimp only
        rw [if_neg (by omega)]
      dsimp only
      rw [hsf, if_neg (by omega)]
  · rfl

end Collin

namespace FortBend

/-- With fewer than four full digit-or-comma tokens on the line, the
candidate extractor fails. -/
theorem candMatch_none (line : String)
    (hn : ((StrUtil.pyTokens line).filter
      (fun t => StrUtil.allDC t.data)).length < 4) :
    candMatch line = none := by
  unfold candMatch
  dsimp only
  split
  · split
    · rename_i party rest hparts
      split
      · rename_i j0 hidx
        split
        · split
          · rename_i h4
            exfalso
            rw [List.length_map] at h4
            have hb := List.Sublist.length_le
              (List.Sublist.filter (fun t => StrUtil.allDC t.data)
                (List.drop_sublist (j0 + 1) (StrUtil.pyTokens line)))
            omega
          · rfl
        · rfl
      · rfl
    · rfl
  · rfl

end FortBend

/-- C6: a line starting with a known party token but carrying fewer
numeric fields than its line type's configured minimum (six digit-or-comma
runs for collin.py, four full numeric tokens for fort_bend.py) produces
zero records from the candidate classifier and every fallback extractor;
the line is dropped and the scan continues. -/
theorem claim_C6 :
    (∀ (county : String) (st : Collin.St) (prec office line : String),
      (["Rep ", "Dem ", "Lib ", "Grn ", "IND "].any
        (fun p => StrUtil.startsWithS line p)) = true →
      (StrUtil.runsOf StrUtil.isDC line.data).length < 6 →
      Collin.goCand county st prec office line = (st, [])) ∧
    (∀ (county : String) (st : FortBend.St) (prec line : String),
      (["REP", "DEM", "LIB", "GRN", "IND"].any
        (fun p => StrUtil.startsWithS line p)) = true →
      ((StrUtil.pyTokens line).filter
        (fun t => StrUtil.allDC t.data)).length < 4 →
      FortBend.goCand county st prec line = (st, [])) := by
  constructor
  · intro county st prec office line hpre hr
    have hfb := Collin.fallbackOut_none county st prec office line hr
    have hsc : Collin.strictCand line = none := by
      cases hs : Collin.strictCand line with
      | none => rfl
      | some cv => exact absurd (Collin.strictCand_runs line cv hs) (by omega)
    have huc : Collin.uncontestedCand line = none := by
      cases hs : Collin.uncontestedCand line with
      | none => rfl
      | some cv => exact absurd (Collin.uncontestedCand_runs line cv hs) (by omega)
    have hpc : Collin.propCand line = none := by
      cases hs : Collin.propCand line with
      | none => rfl
      | some cv => exact absurd (Collin.propCand_runs line cv hs) (by omega)
    unfold Collin.goCand
    rw [hfb, hsc, huc, hpc]
  · intro county st prec line hpre hn
    have hcm := FortBend.candMatch_none line hn
    unfold FortBend.goCand
    split
    · rw [hcm]
    · rfl

/-- C6 witness: a collin party line with only four numeric runs and a
fort_bend party line with only three numeric tokens. -/
theorem claim_C6_witness :
    Collin.goCand "C" ⟨some "P1", some "Sheriff", ""⟩ "P1" "Sheriff"
      "Rep John Smith 10 45.00% 3" = (⟨some "P1", some "Sheriff", ""⟩, []) ∧
    FortBend.goCand "C" ⟨some "P1", some "Sheriff", "", []⟩ "P1"
      "REP John 10 2 3" = (⟨some "P1", some "Sheriff", "", []⟩, []) :=
  ⟨claim_C6.1 "C" ⟨some "P1", some "Sheriff", ""⟩ "P1" "Sheriff"
      "Rep John Smith 10 45.00% 3" (by decide) (by decide),
   claim_C6.2 "C" ⟨some "P1", some "Sheriff", "", []⟩ "P1"
      "REP John 10 2 3" (by decide) (by decide)⟩
